import Mathlib

/-
Verification of the scheduling and publication core of a Telegram
auto-posting system: credential validation, the publisher, the daily
generation planner, the schedule matcher with its daily publication
ledger, and the schedule-editing operations.

The definitions below are shallow embeddings of the TypeScript source:
`src/lib/utils.ts` (credential validation), `src/context/ChannelContext.tsx`
(publishPost, generateDailyPosts, checkScheduledPosts), the schedule
settings component (handleAddTime / handleRemoveTime /
handleAutoGenerateSchedule) and the supabase cron function's transport
shape decision.  External effects (the Telegram HTTP transport, content
generation, uuid and clock) are passed in as explicit parameters.
-/

set_option maxHeartbeats 2000000
set_option maxRecDepth 40000

namespace TG

/-! ## Data model (src/types/index.ts) -/

inductive PostStatus where
  | pending
  | generated
  | published
  | failed
deriving DecidableEq, Repr

structure ScheduleTime where
  hour : Nat
  minute : Nat
deriving DecidableEq, Repr

structure Post where
  id : String
  channelId : String
  text : String
  imageUrl : String
  status : PostStatus
  createdAt : String
  publishedAt : Option String := none
  error : Option String := none
  telegramPostId : Option String := none
deriving DecidableEq, Repr

structure Channel where
  id : String
  name : String
  botToken : String
  chatId : String
  postsPerDay : Nat
  promptTemplate : String
  grokApiKey : Option String := none
  lastPosts : List Post
  isActive : Bool
  schedule : List ScheduleTime
deriving DecidableEq, Repr

structure ChannelStats where
  channelId : String
  generated : Nat
  published : Nat
deriving DecidableEq, Repr

structure Statistics where
  totalPostsGenerated : Nat
  totalPostsPublished : Nat
  postsByChannel : List ChannelStats
deriving DecidableEq, Repr

/-- Full mutable state touched by the planner and the matcher: the channel
list, the statistics object and the daily publication ledger
(`lastPostTimes`, a map from `channelId-hour:minute` keys to timestamps). -/
structure AppState where
  channels : List Channel
  statistics : Statistics
  lastPostTimes : List (String × String)
deriving DecidableEq, Repr

/-! ## Credential validator (src/lib/utils.ts, validateTelegramCredentials)

The bot-token pattern is `^\d+:[A-Za-z0-9_-]+$`; the chat-id pattern is
`^-?\d+$|^@[A-Za-z0-9_]+$`.  Both are compiled by hand into character-list
matchers. -/

def isTokenTailChar (c : Char) : Bool :=
  c.isAlpha || c.isDigit || c == '_' || c == '-'

def isHandleChar (c : Char) : Bool :=
  c.isAlpha || c.isDigit || c == '_'

/-- `^\d+:[A-Za-z0-9_-]+$`: a nonempty digit run, a colon, then a nonempty
run of `[A-Za-z0-9_-]` characters.  The digit run is maximal-munch, which
is equivalent to the regex because `:` is not a digit. -/
def tokenMatches (s : String) : Bool :=
  !(s.data.takeWhile Char.isDigit).isEmpty &&
    match s.data.dropWhile Char.isDigit with
    | c :: rest => c == ':' && !rest.isEmpty && rest.all isTokenTailChar
    | [] => false

/-- `^-?\d+$`: an optional leading minus then a nonempty digit run. -/
def numericChatMatches (cs : List Char) : Bool :=
  match cs with
  | c :: rest =>
      if c == '-' then !rest.isEmpty && rest.all Char.isDigit
      else (c :: rest).all Char.isDigit
  | [] => false

/-- `^@[A-Za-z0-9_]+$`. -/
def handleChatMatches (cs : List Char) : Bool :=
  match cs with
  | c :: rest => c == '@' && !rest.isEmpty && rest.all isHandleChar
  | [] => false

def chatIdMatches (s : String) : Bool :=
  numericChatMatches s.data || handleChatMatches s.data

def validateTelegramCredentials (botToken chatId : String) : Bool :=
  if botToken.data.isEmpty || chatId.data.isEmpty then false
  else if !tokenMatches botToken then false
  else if !chatIdMatches chatId then false
  else true

/-! Declarative readings of the two regular expressions, used to state the
credential-validation claim independently of the matcher implementation. -/

def TokenRegexSpec (s : String) : Prop :=
  ∃ ds rest, s.data = ds ++ ':' :: rest ∧ ds ≠ [] ∧
    (∀ c ∈ ds, c.isDigit = true) ∧ rest ≠ [] ∧
    (∀ c ∈ rest, isTokenTailChar c = true)

def ChatIdRegexSpec (s : String) : Prop :=
  (∃ ds, ds ≠ [] ∧ (∀ c ∈ ds, c.isDigit = true) ∧
     (s.data = ds ∨ s.data = '-' :: ds)) ∨
  (∃ tl, tl ≠ [] ∧ (∀ c ∈ tl, isHandleChar c = true) ∧ s.data = '@' :: tl)

/-! ## Publisher (src/context/ChannelContext.tsx, publishPost)

The Telegram transport (`sendTelegramMessage` / `sendTelegramPhoto` of
`src/lib/utils.ts`) is modelled at its boundary: a call either throws (a
network failure or a non-2xx HTTP response, which those helpers turn into
a thrown error) or returns the parsed JSON envelope
`{ok, description?, result: {message_id}}`. -/

inductive TgRequest where
  | sendMessage (botToken chatId text : String)
  | sendPhoto (botToken chatId photo caption : String)
deriving DecidableEq, Repr

def TgRequest.isPhoto : TgRequest → Bool
  | .sendPhoto _ _ _ _ => true
  | .sendMessage _ _ _ => false

structure TgResult where
  ok : Bool
  description : Option String := none
  messageId : Nat := 0
deriving DecidableEq, Repr

inductive TransportOutcome where
  | throws (msg : String)
  | returns (result : Option TgResult)
deriving DecidableEq, Repr

abbrev Transport := TgRequest → TransportOutcome

def channelNotFoundMsg : String := "Канал для публікації не знайдено"

def invalidCredsMsg (name : String) : String :=
  "Невірний формат токену бота або ID чату для каналу \"" ++ name ++ "\""

def apiErrorMsg (m : String) : String := "Помилка Telegram API: " ++ m

def unknownErrorText : String := "Невідома помилка"

def tgReturnedErrorMsg (d : Option String) : String :=
  "Telegram API повернув помилку: " ++ d.getD unknownErrorText

def publishFailureMsg (m : String) : String :=
  "Помилка під час публікації посту: " ++ m

def placeholderUrl : String := "https://via.placeholder.com/500"

/-- Transport shape decision of `publishPost`: photo+caption when the post
carries a nonempty image URL different from the placeholder sentinel,
text-only otherwise. -/
def publishRequest (channel : Channel) (post : Post) : TgRequest :=
  if post.imageUrl ≠ "" ∧ post.imageUrl ≠ placeholderUrl then
    .sendPhoto channel.botToken channel.chatId post.imageUrl post.text
  else
    .sendMessage channel.botToken channel.chatId post.text

def failedWith (post : Post) (msg : String) : Post :=
  { post with status := .failed, error := some msg }

def publishedWith (post : Post) (nowIso : String) (messageId : Nat) : Post :=
  { post with
    status := .published, publishedAt := some nowIso,
    telegramPostId := some (Nat.repr messageId) }

/-- How `publishPost` maps one transport outcome to the resolved post:
thrown errors, null envelopes and `ok:false` envelopes become a failed
post carrying the wrapped error message; an `ok:true` envelope becomes a
published post stamped with the returned message id. -/
def outcomePost (post : Post) (nowIso : String) : TransportOutcome → Post
  | .throws m => failedWith post (publishFailureMsg (apiErrorMsg m))
  | .returns none =>
      failedWith post (publishFailureMsg (tgReturnedErrorMsg none))
  | .returns (some r) =>
      if r.ok = false then
        failedWith post (publishFailureMsg (tgReturnedErrorMsg r.description))
      else publishedWith post nowIso r.messageId

/-- Body of `publishPost` once the channel is found: resolve a failed post
on malformed credentials; otherwise call the transport once and resolve
the post `outcomePost` assigns to the outcome. -/
def publishChannelPost (channel : Channel) (nowIso : String)
    (transport : Transport) (post : Post) : Except String Post :=
  if validateTelegramCredentials channel.botToken channel.chatId = false then
    .ok (failedWith post (invalidCredsMsg channel.name))
  else
    .ok (outcomePost post nowIso (transport (publishRequest channel post)))

/-- `publishPost`: reject when the channel is unknown, otherwise run the
publication body for the found channel. -/
def publishPost (channels : List Channel) (nowIso : String)
    (transport : Transport) (post : Post) : Except String Post :=
  match channels.find? (fun c => c.id == post.channelId) with
  | none => .error channelNotFoundMsg
  | some channel => publishChannelPost channel nowIso transport post

/-! ## Cron variant of the transport shape decision
(supabase/functions/telegram-cron/index.ts, checkScheduledPosts):
`post.image_url && !post.image_url.includes('placehold')`. -/

def strContainsAux (sub : List Char) : List Char → Bool
  | [] => sub.isEmpty
  | c :: rest => sub.isPrefixOf (c :: rest) || strContainsAux sub rest

/-- `s.includes(sub)` on character lists. -/
def strContains (s sub : String) : Bool := strContainsAux sub.data s.data

def cronPublishRequest (botToken chatId : String) (imageUrl : Option String)
    (text : String) : TgRequest :=
  match imageUrl with
  | some u =>
      if u ≠ "" ∧ strContains u "placehold" = false then
        .sendPhoto botToken chatId u text
      else .sendMessage botToken chatId text
  | none => .sendMessage botToken chatId text

/-! ## Concrete transports, channels and posts used as witnesses -/

def alwaysOkTransport : Transport :=
  fun _ => .returns (some { ok := true, description := none, messageId := 7 })

def alwaysThrowTransport : Transport := fun _ => .throws "network down"

def okFalseTransport : Transport :=
  fun _ =>
    .returns (some
      { ok := false, description := some "Bad Request: chat not found",
        messageId := 0 })

def examplePost : Post :=
  { id := "p1", channelId := "c1", text := "hello", imageUrl := "",
    status := .generated, createdAt := "2024-01-01T07:00:00Z" }

def examplePhotoPost : Post :=
  { id := "p2", channelId := "c1", text := "pic",
    imageUrl := "https://placehold.co/600x400/png",
    status := .generated, createdAt := "2024-01-01T07:05:00Z" }

def exampleChannel : Channel :=
  { id := "c1", name := "Alpha", botToken := "123:abc", chatId := "@chan",
    postsPerDay := 1, promptTemplate := "tpl", grokApiKey := none,
    lastPosts := [examplePost], isActive := true, schedule := [⟨9, 30⟩] }

/-- The failed post produced by `publishPost` on an `ok:false` envelope
carrying a description. -/
def exampleFailedPost : Post :=
  failedWith examplePost
    (publishFailureMsg (tgReturnedErrorMsg (some "Bad Request: chat not found")))

/-! ## Schedule settings (ScheduleSettings component:
handleAddTime / handleRemoveTime / handleAutoGenerateSchedule) -/

/-- The sort comparator `(a, b) => a.hour - b.hour || a.minute - b.minute`
read as a (nonstrict, total) order on schedule entries. -/
def schedBefore (a b : ScheduleTime) : Prop :=
  a.hour < b.hour ∨ (a.hour = b.hour ∧ a.minute ≤ b.minute)

instance : DecidableRel schedBefore := fun a b => by
  unfold schedBefore; infer_instance

instance : IsTotal ScheduleTime schedBefore :=
  ⟨by intro a b; unfold schedBefore; omega⟩

instance : IsTrans ScheduleTime schedBefore :=
  ⟨by intro a b c hab hbc; unfold schedBefore at hab hbc ⊢; omega⟩

/-- Strict ascending order by (hour, minute). -/
def schedLT (a b : ScheduleTime) : Prop :=
  a.hour < b.hour ∨ (a.hour = b.hour ∧ a.minute < b.minute)

instance : DecidableRel schedLT := fun a b => by
  unfold schedLT; infer_instance

/-- The schedule invariant: strictly sorted ascending by (hour, minute). -/
def StrictlySorted (l : List ScheduleTime) : Prop := l.Pairwise schedLT

instance (l : List ScheduleTime) : Decidable (StrictlySorted l) := by
  unfold StrictlySorted; infer_instance

/-- `handleAddTime`: reject the pair when it is already scheduled,
otherwise append it and sort by hour then minute. -/
def handleAddTime (schedule : List ScheduleTime) (hour minute : Nat) :
    List ScheduleTime :=
  if schedule.any (fun t => t.hour == hour && t.minute == minute) then schedule
  else List.insertionSort schedBefore (schedule ++ [⟨hour, minute⟩])

/-- `handleRemoveTime`: drop the entry at the given position
(`filter((_, i) => i !== index)`). -/
def handleRemoveTime (schedule : List ScheduleTime) (index : Nat) :
    List ScheduleTime :=
  schedule.eraseIdx index

/-- ⌊log₂ n⌋ by repeated halving; the first argument is fuel and any
fuel ≥ n suffices (the recursion stops after ⌊log₂ n⌋ halvings). -/
def natLog2Aux : Nat → Nat → Nat
  | 0, _ => 0
  | fuel + 1, n => if n ≤ 1 then 0 else natLog2Aux fuel (n / 2) + 1

def natLog2 (n : Nat) : Nat := natLog2Aux n n

/-- An exact fraction num / den.  Denominators stay positive throughout
the development; fractions are never reduced, so every operation is
plain integer arithmetic. -/
structure Frac where
  num : Int
  den : Nat
  deriving DecidableEq, Repr

namespace Frac

def ofNat (k : Nat) : Frac := ⟨k, 1⟩

def ofInt (k : Int) : Frac := ⟨k, 1⟩

def mul (p q : Frac) : Frac := ⟨p.num * q.num, p.den * q.den⟩

def add (p q : Frac) : Frac := ⟨p.num * q.den + q.num * p.den, p.den * q.den⟩

def sub (p q : Frac) : Frac := ⟨p.num * q.den - q.num * p.den, p.den * q.den⟩

/-- Division, for a positive divisor. -/
def div (p q : Frac) : Frac := ⟨p.num * q.den, p.den * q.num.toNat⟩

/-- ⌊p⌋ (Int.ediv floors for a positive denominator); this is the exact
`Math.floor` of the value. -/
def floor (p : Frac) : Int := p.num / (p.den : Int)

/-- The value m * 2^e as a fraction. -/
def dyadic (m : Int) (e : Int) : Frac :=
  if 0 ≤ e then ⟨m * ((2 ^ e.toNat : ℕ) : ℤ), 1⟩ else ⟨m, 2 ^ (-e).toNat⟩

/-- Whether p < 2^e, by cross-multiplication. -/
def lt2 (p : Frac) (e : Int) : Bool :=
  if 0 ≤ e then p.num < ((2 ^ e.toNat : ℕ) : ℤ) * (p.den : ℤ)
  else p.num * ((2 ^ (-e).toNat : ℕ) : ℤ) < (p.den : ℤ)

def log2Guess (p : Frac) : Int :=
  (natLog2 p.num.toNat : Int) - (natLog2 p.den : Int)

/-- ⌊log₂ p⌋ for positive p: the num/den guess is within one of the
true value and is corrected by direct comparison. -/
def flog (p : Frac) : Int :=
  if p.lt2 p.log2Guess then p.log2Guess - 1
  else if !p.lt2 (p.log2Guess + 1) then p.log2Guess + 1
  else p.log2Guess

/-- Round to the nearest integer, ties to even (on the remainder of the
euclidean division by the positive denominator). -/
def round (p : Frac) : Int :=
  if 2 * (p.num % (p.den : Int)) < (p.den : Int) then p.num / (p.den : Int)
  else if (p.den : Int) < 2 * (p.num % (p.den : Int)) then p.num / (p.den : Int) + 1
  else if (p.num / (p.den : Int)) % 2 = 0 then p.num / (p.den : Int)
  else p.num / (p.den : Int) + 1

/-- The IEEE-754 binary64 exponent at which a positive value is rounded:
52 bits after the leading binary digit, clamped below at the subnormal
limit 2^(-1074). -/
def flExp (p : Frac) : Int := max (p.flog - 52) (-1074)

/-- Round a nonnegative fraction to the nearest IEEE-754 binary64 value
(round-to-nearest, ties to even), as an exact fraction: the value is
scaled into the integer mantissa range for its exponent, rounded, and
scaled back.  Magnitudes that would overflow binary64 do not occur in
this development.  This is exactly the rounding JavaScript number
arithmetic performs after every operation. -/
def fl (p : Frac) : Frac :=
  if p.num ≤ 0 then ⟨0, 1⟩
  else dyadic ((p.mul (dyadic 1 (-p.flExp))).round) p.flExp

/-- The exact rational value of a fraction. -/
def toRat (p : Frac) : ℚ := (p.num : ℚ) / (p.den : ℚ)

end Frac

/-- `const interval = 24 / postsPerDay`, on binary64 doubles. -/
def jsInterval (postsPerDay : Nat) : Frac :=
  Frac.fl ((Frac.ofNat 24).div (Frac.ofNat postsPerDay))

/-- `startHour + (i * interval)` with `startHour = 9`, each operation
rounding its exact result to binary64 as JavaScript number arithmetic
does. -/
def autoT (postsPerDay i : Nat) : Frac :=
  Frac.fl ((Frac.ofNat 9).add
    (Frac.fl ((Frac.ofNat i).mul (jsInterval postsPerDay))))

/-- `startHour + (i * interval) - Math.floor(startHour + (i * interval))`
on doubles (the subtraction rounds; `Math.floor` is exact). -/
def autoFrac (postsPerDay i : Nat) : Frac :=
  Frac.fl ((autoT postsPerDay i).sub (Frac.ofInt (autoT postsPerDay i).floor))

/-- `(startHour + (i * interval) - Math.floor(...)) * 60` on doubles. -/
def autoMinuteVal (postsPerDay i : Nat) : Frac :=
  Frac.fl ((autoFrac postsPerDay i).mul (Frac.ofNat 60))

/-- One auto-generated entry: `hour = Math.floor(t) % 24` and
`minute = Math.floor((t - Math.floor(t)) * 60)` with
`t = startHour + (i * interval)`, every operation on binary64 doubles. -/
def autoScheduleEntry (postsPerDay i : Nat) : ScheduleTime :=
  { hour := (autoT postsPerDay i).floor.toNat % 24,
    minute := (autoMinuteVal postsPerDay i).floor.toNat }

def autoSchedule (postsPerDay : Nat) : List ScheduleTime :=
  (List.range postsPerDay).map (autoScheduleEntry postsPerDay)

/-- `handleAutoGenerateSchedule`: reject a nonpositive postsPerDay (no
update), otherwise replace the whole schedule with `postsPerDay` entries
computed from the float64 interval `24 / postsPerDay`. -/
def handleAutoGenerateSchedule (channel : Channel) : Option Channel :=
  if channel.postsPerDay = 0 then none
  else some { channel with schedule := autoSchedule channel.postsPerDay }

/-- The claim's exact-arithmetic reading of the i-th entry time (this
definition follows the spec's words, not the source): `9 + i * (24 /
postsPerDay)` hours with exact fractions, no binary64 rounding. -/
def exactAutoT (postsPerDay i : Nat) : Frac :=
  (Frac.ofNat 9).add
    ((Frac.ofNat i).mul ((Frac.ofNat 24).div (Frac.ofNat postsPerDay)))

/-- The claim's exact-arithmetic reading of an auto-generated entry: the
hour floored mod 24 and the fractional hour rounded down to whole
minutes, with exact arithmetic throughout. -/
def exactScheduleEntry (postsPerDay i : Nat) : ScheduleTime :=
  { hour := (exactAutoT postsPerDay i).floor.toNat % 24,
    minute := (((exactAutoT postsPerDay i).sub
      (Frac.ofInt (exactAutoT postsPerDay i).floor)).mul
        (Frac.ofNat 60)).floor.toNat }

def exampleSortedSchedule : List ScheduleTime := [⟨9, 0⟩, ⟨12, 30⟩, ⟨21, 15⟩]

def fivePerDayChannel : Channel := { exampleChannel with id := "c2", postsPerDay := 5 }

/-! ## Daily Generation Planner (src/context/ChannelContext.tsx,
generateDailyPosts / generatePostForChannel)

Content generation, uuid creation and the clock are effectful; they are
passed in as explicit parameters (`genText`, `uuids`, `nowIso`).  A post
belongs to "today" when its createdAt ISO timestamp starts with the date
string `today` (`post.createdAt.startsWith(today)`). -/

/-- `s.startsWith(pre)` on character lists. -/
def strStartsWith (s pre : String) : Bool := pre.data.isPrefixOf s.data

/-- The posts counted against today's schedule:
`post.createdAt.startsWith(today) && post.status === 'generated'`. -/
def isTodayGenerated (today : String) (p : Post) : Bool :=
  strStartsWith p.createdAt today && p.status == PostStatus.generated

def channelMissingMsg : String := "Канал не знайдено"

def invalidChannelCredsMsg (name : String) : String :=
  "Канал \"" ++ name ++
    "\" має невірні дані для Telegram: перевірте Bot Token та Chat ID"

def defaultPromptTemplate : String := "Створи цікавий пост для соціальних мереж"

def testModeImageUrl : String := "https://placehold.co/600x400/png"

def grokImageUrl : String :=
  "https://placehold.co/600x400/png?text=Generated%20Content"

/-- The generated post built by `generatePostForChannel` (the test-content
branch and the Grok branch differ only in the image URL and in where the
text comes from; the generated text is supplied by `genText`). -/
def generatedPost (genText : String → String) (uuid nowIso : String)
    (channel : Channel) : Post :=
  { id := uuid, channelId := channel.id,
    text := genText (if channel.promptTemplate.data.isEmpty
      then defaultPromptTemplate else channel.promptTemplate),
    imageUrl := if channel.grokApiKey.isSome then grokImageUrl
      else testModeImageUrl,
    status := .generated, createdAt := nowIso }

/-- `generatePostForChannel`: reject when the channel is unknown or its
credentials fail validation, otherwise resolve a fresh generated post. -/
def generatePostForChannel (channels : List Channel)
    (genText : String → String) (uuid nowIso : String) (channelId : String) :
    Except String Post :=
  match channels.find? (fun c => c.id == channelId) with
  | none => .error channelMissingMsg
  | some channel =>
      if validateTelegramCredentials channel.botToken channel.chatId = false
      then .error (invalidChannelCredsMsg channel.name)
      else .ok (generatedPost genText uuid nowIso channel)

/-- Append a freshly generated post to its channel. -/
def appendPostTo (channelId : String) (post : Post)
    (channels : List Channel) : List Channel :=
  channels.map (fun c =>
    if c.id == channelId then { c with lastPosts := c.lastPosts ++ [post] }
    else c)

/-- Statistics update after one successful generation. -/
def bumpGenerated (channelId : String) (stats : Statistics) : Statistics :=
  { stats with
    totalPostsGenerated := stats.totalPostsGenerated + 1,
    postsByChannel := stats.postsByChannel.map (fun s =>
      if s.channelId == channelId then { s with generated := s.generated + 1 }
      else s) }

/-- State update the planner performs after one successful generation. -/
def recordGenerated (channelId : String) (post : Post) (st : AppState) :
    AppState :=
  { channels := appendPostTo channelId post st.channels,
    statistics := bumpGenerated channelId st.statistics,
    lastPostTimes := st.lastPostTimes }

/-- One iteration of the planner's generation loop: a rejected generation
is logged and skipped, a successful one is recorded. -/
def genStep (channels0 : List Channel) (genText : String → String)
    (uuid nowIso channelId : String) (st : AppState) : AppState :=
  match generatePostForChannel channels0 genText uuid nowIso channelId with
  | .error _ => st
  | .ok post => recordGenerated channelId post st

/-- `generateDailyPosts`: no-op when the channel is unknown, its schedule
is empty, or enough generated posts exist for today; otherwise run the
generation loop once per missing post (against the channel snapshot taken
at entry). -/
def generateDailyPosts (genText : String → String) (uuids : Nat → String)
    (today nowIso : String) (st : AppState) (channelId : String) : AppState :=
  match st.channels.find? (fun c => c.id == channelId) with
  | none => st
  | some channel =>
      if channel.schedule.isEmpty then st
      else
        if channel.schedule.length ≤
            (channel.lastPosts.filter (isTodayGenerated today)).length then st
        else
          (List.range (channel.schedule.length -
              (channel.lastPosts.filter (isTodayGenerated today)).length)).foldl
            (fun s i => genStep st.channels genText (uuids i) nowIso channelId s)
            st

/-- The batch of posts a fully successful planner run appends. -/
def plannedPosts (genText : String → String) (uuids : Nat → String)
    (nowIso : String) (channel : Channel) (n : Nat) : List Post :=
  (List.range n).map (fun i => generatedPost genText (uuids i) nowIso channel)

/-! Concrete planner inputs. -/

def constGenText : String → String := fun _ => "generated content"

def seqUuids : Nat → String := fun n => "uuid-" ++ Nat.repr n

def badCredsChannel : Channel :=
  { id := "cb", name := "Bad", botToken := "not-a-token", chatId := "@x",
    postsPerDay := 1, promptTemplate := "tpl", grokApiKey := none,
    lastPosts := [], isActive := true, schedule := [⟨9, 0⟩] }

def badCredsState : AppState :=
  { channels := [badCredsChannel], statistics := ⟨0, 0, [⟨"cb", 0, 0⟩]⟩,
    lastPostTimes := [] }

def plannerChannel : Channel :=
  { id := "c3", name := "Gamma", botToken := "42:token", chatId := "-100123",
    postsPerDay := 2, promptTemplate := "tpl", grokApiKey := none,
    lastPosts := [], isActive := true, schedule := [⟨9, 0⟩, ⟨21, 0⟩] }

def plannerState : AppState :=
  { channels := [plannerChannel], statistics := ⟨0, 0, [⟨"c3", 0, 0⟩]⟩,
    lastPostTimes := [] }

def emptyScheduleChannel : Channel :=
  { id := "c4", name := "Delta", botToken := "7:tok", chatId := "@d",
    postsPerDay := 0, promptTemplate := "tpl", grokApiKey := none,
    lastPosts := [], isActive := true, schedule := [] }

def noopState : AppState :=
  { channels := [emptyScheduleChannel], statistics := ⟨0, 0, []⟩,
    lastPostTimes := [] }

/-! ## Schedule Matcher / Dispatcher (src/context/ChannelContext.tsx,
checkScheduledPosts)

The once-per-minute tick: for each active channel, find the first schedule
entry whose hour equals the current hour and whose minute is within one
minute of the current minute; skip when the daily ledger already holds the
`channelId-hour:minute` key built from the *tick* time; otherwise publish
the first generated post created today, record the resolved post in the
channel, and — only when the publish resolved 'published' — bump the
statistics and mark the ledger. -/

/-- The `currentTimeKey` template literal `hour:minute` (no zero padding). -/
def timeKey (h mi : Nat) : String := Nat.repr h ++ ":" ++ Nat.repr mi

/-- `lastPostKey = channelId + "-" + currentTimeKey`. -/
def ledgerKey (channelId : String) (h mi : Nat) : String :=
  channelId ++ "-" ++ timeKey h mi

def ledgerHas (ledger : List (String × String)) (k : String) : Bool :=
  ledger.any (fun e => e.1 == k)

/-- JavaScript object update `{ ...prev, [key]: value }`. -/
def ledgerSet (ledger : List (String × String)) (k v : String) :
    List (String × String) :=
  if ledgerHas ledger k then
    ledger.map (fun e => if e.1 == k then (e.1, v) else e)
  else ledger ++ [(k, v)]

/-- `time.hour === currentHour && Math.abs(time.minute - currentMinute) <= 1`. -/
def slotMatches (h mi : Nat) (t : ScheduleTime) : Bool :=
  t.hour == h && decide (((t.minute : Int) - (mi : Int)).natAbs ≤ 1)

deriving instance DecidableEq for Except

/-- One invocation of the Publisher by the matcher: the channel, the
matched slot, the tick time, and the resolved outcome. -/
structure Dispatch where
  channelId : String
  slot : ScheduleTime
  tickHour : Nat
  tickMinute : Nat
  outcome : Except String Post
deriving DecidableEq, Repr

def outcomeIsPublished (d : Dispatch) : Bool :=
  match d.outcome with
  | .ok p => p.status == PostStatus.published
  | .error _ => false

/-- Replace the dispatched post by its resolved version inside its channel. -/
def markPublished (channels : List Channel) (channelId : String)
    (publishedPost : Post) : List Channel :=
  channels.map (fun c =>
    if c.id == channelId then
      { c with lastPosts := c.lastPosts.map (fun p =>
          if p.id == publishedPost.id then publishedPost else p) }
    else c)

/-- Statistics update after a successful scheduled publication. -/
def bumpPublished (channelId : String) (stats : Statistics) : Statistics :=
  { stats with
    totalPostsPublished := stats.totalPostsPublished + 1,
    postsByChannel := stats.postsByChannel.map (fun s =>
      if s.channelId == channelId then { s with published := s.published + 1 }
      else s) }

/-- What the matcher does once it has decided to dispatch: run the
Publisher, record the resolved post, and mark statistics and the ledger
only when the publish resolved 'published'. -/
def dispatchResult (transport : Transport) (nowIso : String)
    (channels0 : List Channel) (key : String) (channelId : String)
    (matchingTime : ScheduleTime) (h mi : Nat) (availablePost : Post)
    (st : AppState) : AppState × List Dispatch :=
  match publishPost channels0 nowIso transport availablePost with
  | .error e => (st, [⟨channelId, matchingTime, h, mi, .error e⟩])
  | .ok publishedPost =>
      if publishedPost.status == PostStatus.published then
        ({ channels := markPublished st.channels channelId publishedPost,
           statistics := bumpPublished channelId st.statistics,
           lastPostTimes := ledgerSet st.lastPostTimes key nowIso },
         [⟨channelId, matchingTime, h, mi, .ok publishedPost⟩])
      else
        ({ st with
           channels := markPublished st.channels channelId publishedPost },
         [⟨channelId, matchingTime, h, mi, .ok publishedPost⟩])

/-- The matcher's handling of one active channel at tick (h, mi). -/
def processChannel (transport : Transport) (today nowIso : String)
    (channels0 : List Channel) (h mi : Nat) (st : AppState)
    (channel : Channel) : AppState × List Dispatch :=
  if channel.schedule.isEmpty then (st, [])
  else
    match channel.schedule.find? (slotMatches h mi) with
    | none => (st, [])
    | some matchingTime =>
        if ledgerHas st.lastPostTimes (ledgerKey channel.id h mi) then (st, [])
        else
          match channel.lastPosts.find? (isTodayGenerated today) with
          | none => (st, [])
          | some availablePost =>
              dispatchResult transport nowIso channels0
                (ledgerKey channel.id h mi) channel.id matchingTime h mi
                availablePost st

/-- One matcher tick: nothing when the bot is stopped, otherwise process
each active channel in order, threading the state; publish calls use the
channel snapshot taken at tick entry. -/
def checkScheduledPosts (transport : Transport) (today nowIso : String)
    (isRunning : Bool) (h mi : Nat) (st : AppState) :
    AppState × List Dispatch :=
  if isRunning = false then (st, [])
  else
    (st.channels.filter (fun c => c.isActive)).foldl
      (fun acc channel =>
        let r := processChannel transport today nowIso st.channels h mi
          acc.1 channel
        (r.1, acc.2 ++ r.2))
      (st, [])

/-- One tick of a matcher run: apply the tick to the threaded state and
accumulate its dispatches. -/
def tickStep (transport : Transport) (today nowIso : String)
    (acc : AppState × List Dispatch) (t : Nat × Nat) :
    AppState × List Dispatch :=
  ((checkScheduledPosts transport today nowIso true t.1 t.2 acc.1).1,
   acc.2 ++ (checkScheduledPosts transport today nowIso true t.1 t.2 acc.1).2)

/-- A run of the matcher over a list of tick times, the bot running
throughout. -/
def runMatcher (transport : Transport) (today nowIso : String)
    (ticks : List (Nat × Nat)) (st : AppState) : AppState × List Dispatch :=
  ticks.foldl (tickStep transport today nowIso) (st, [])

/-- The 60 minute ticks of one hour, in order. -/
def hourTicks (h : Nat) : List (Nat × Nat) :=
  (List.range 60).map (fun mi => (h, mi))

/-- All 1440 minute ticks of one day, in order. -/
def allDayTicks : List (Nat × Nat) := ((List.range 24).map hourTicks).flatten

/-- Publisher invocations attributed to one (channel, slot) pair. -/
def countSlotDispatches (ds : List Dispatch) (channelId : String)
    (slot : ScheduleTime) : Nat :=
  (ds.filter (fun d => d.channelId == channelId && d.slot == slot)).length

/-! Concrete matcher inputs. -/

def cexToday : String := "2024-01-01"

def cexNow : String := "2024-01-01T09:30:10Z"

def cexPost1 : Post :=
  { id := "p1", channelId := "c1", text := "x1", imageUrl := "",
    status := .generated, createdAt := "2024-01-01T07:00:00Z" }

def cexPost2 : Post :=
  { id := "p2", channelId := "c1", text := "x2", imageUrl := "",
    status := .generated, createdAt := "2024-01-01T07:05:00Z" }

def cexChannel : Channel :=
  { id := "c1", name := "Main", botToken := "123:abc", chatId := "@chan",
    postsPerDay := 2, promptTemplate := "t", grokApiKey := none,
    lastPosts := [cexPost1, cexPost2], isActive := true,
    schedule := [⟨9, 30⟩, ⟨21, 0⟩] }

def cexState : AppState :=
  { channels := [cexChannel], statistics := ⟨2, 0, [⟨"c1", 2, 0⟩]⟩,
    lastPostTimes := [] }

/-- The full 24h once-per-minute run over the counterexample state. -/
def dayRun : AppState × List Dispatch :=
  runMatcher alwaysOkTransport cexToday cexNow allDayTicks cexState

/-- One successful dispatch of the matcher at tick (9, 30). -/
def tickResult : AppState × List Dispatch :=
  processChannel alwaysOkTransport cexToday cexNow [cexChannel] 9 30 cexState
    cexChannel

def tickDispatch : Dispatch :=
  ⟨"c1", ⟨9, 30⟩, 9, 30, .ok (publishedWith cexPost1 cexNow 7)⟩

def failPost : Post :=
  { id := "q1", channelId := "c5", text := "y", imageUrl := "",
    status := .generated, createdAt := "2024-01-01T07:00:00Z" }

def failChannel : Channel :=
  { id := "c5", name := "Solo", botToken := "123:abc", chatId := "@chan",
    postsPerDay := 1, promptTemplate := "t", grokApiKey := none,
    lastPosts := [failPost], isActive := true, schedule := [⟨9, 30⟩] }

def failState : AppState :=
  { channels := [failChannel], statistics := ⟨1, 0, [⟨"c5", 1, 0⟩]⟩,
    lastPostTimes := [] }

/-- Two adjacent ticks of the tolerance window of slot (9, 30), with a
transport that always throws. -/
def failRun : AppState × List Dispatch :=
  runMatcher alwaysThrowTransport cexToday cexNow [(9, 29), (9, 30)] failState

/-- The first tick of the failing scenario, at channel granularity. -/
def failTick1 : AppState × List Dispatch :=
  processChannel alwaysThrowTransport cexToday cexNow [failChannel] 9 29
    failState failChannel

def cexPub1 : Post := publishedWith cexPost1 cexNow 7

def cexPub2 : Post := publishedWith cexPost2 cexNow 7

/-- The state after the hour-9 ticks of the 24h counterexample run: both
pre-generated posts published, and the ledger keyed by the two tick times
9:29 and 9:30 (not by the slot 9:30). -/
def cexState9 : AppState :=
  { channels := [{ cexChannel with lastPosts := [cexPub1, cexPub2] }],
    statistics := ⟨2, 2, [⟨"c1", 2, 2⟩]⟩,
    lastPostTimes := [(ledgerKey "c1" 9 29, cexNow), (ledgerKey "c1" 9 30, cexNow)] }

def cexD1 : Dispatch := ⟨"c1", ⟨9, 30⟩, 9, 29, .ok cexPub1⟩

def cexD2 : Dispatch := ⟨"c1", ⟨9, 30⟩, 9, 30, .ok cexPub2⟩

end TG

namespace TG

/-! ## Helper lemmas about the regex matchers -/

theorem takeWhile_append_stop {p : Char → Bool} :
    ∀ (l : List Char), (∀ c ∈ l, p c = true) → ∀ (x : Char), p x = false →
      ∀ (r : List Char), (l ++ x :: r).takeWhile p = l := by
  intro l
  induction l with
  | nil =>
      intro _ x hx r
      simp [List.takeWhile_cons, hx]
  | cons a as ih =>
      intro h x hx r
      have ha : p a = true := h a (by simp)
      simp only [List.cons_append, List.takeWhile_cons, ha]
      rw [ih (fun c hc => h c (by simp [hc])) x hx r]
      simp

theorem dropWhile_append_stop {p : Char → Bool} :
    ∀ (l : List Char), (∀ c ∈ l, p c = true) → ∀ (x : Char), p x = false →
      ∀ (r : List Char), (l ++ x :: r).dropWhile p = x :: r := by
  intro l
  induction l with
  | nil =>
      intro _ x hx r
      simp [List.dropWhile_cons, hx]
  | cons a as ih =>
      intro h x hx r
      have ha : p a = true := h a (by simp)
      simp only [List.cons_append, List.dropWhile_cons, ha]
      exact ih (fun c hc => h c (by simp [hc])) x hx r

theorem tokenMatches_iff (s : String) :
    tokenMatches s = true ↔ TokenRegexSpec s := by
  constructor
  · intro h
    unfold tokenMatches at h
    rw [Bool.and_eq_true] at h
    obtain ⟨h1, h2⟩ := h
    cases hd : s.data.dropWhile Char.isDigit with
    | nil => rw [hd] at h2; simp at h2
    | cons c rest =>
        rw [hd] at h2
        simp only [Bool.and_eq_true, beq_iff_eq] at h2
        obtain ⟨⟨hc, hne⟩, hall⟩ := h2
        refine ⟨s.data.takeWhile Char.isDigit, rest, ?_, ?_, ?_, ?_, ?_⟩
        · rw [← hc, ← hd]
          exact (List.takeWhile_append_dropWhile Char.isDigit s.data).symm
        · intro hnil; rw [hnil] at h1; simp at h1
        · intro a ha; exact List.mem_takeWhile_imp ha
        · intro hnil; rw [hnil] at hne; simp at hne
        · intro a ha; exact (List.all_eq_true.mp hall) a ha
  · rintro ⟨ds, rest, hsplit, hds, hdig, hrest, htail⟩
    have hcolon : Char.isDigit ':' = false := by decide
    have htake : s.data.takeWhile Char.isDigit = ds := by
      rw [hsplit]; exact takeWhile_append_stop ds hdig ':' hcolon rest
    have hdrop : s.data.dropWhile Char.isDigit = ':' :: rest := by
      rw [hsplit]; exact dropWhile_append_stop ds hdig ':' hcolon rest
    unfold tokenMatches
    rw [htake, hdrop]
    simp only [Bool.and_eq_true, beq_self_eq_true, true_and]
    refine ⟨by simpa using hds, by simpa using hrest, List.all_eq_true.mpr htail⟩

theorem numericChatMatches_iff (cs : List Char) :
    numericChatMatches cs = true ↔
      (∃ ds, ds ≠ [] ∧ (∀ c ∈ ds, c.isDigit = true) ∧
        (cs = ds ∨ cs = '-' :: ds)) := by
  cases cs with
  | nil =>
      simp only [numericChatMatches]
      constructor
      · intro h; exact absurd h (by simp)
      · rintro ⟨ds, hds, _, h | h⟩
        · exact absurd h.symm hds
        · exact absurd h (by simp)
  | cons c rest =>
      by_cases hc : c = '-'
      · subst hc
        simp only [numericChatMatches, if_pos (by rfl : ('-' == '-') = true),
          Bool.and_eq_true]
        constructor
        · rintro ⟨hne, hall⟩
          exact ⟨rest, by simpa using hne, List.all_eq_true.mp hall, Or.inr rfl⟩
        · rintro ⟨ds, hds, hdig, h | h⟩
          · -- '-' :: rest = ds, but all of ds are digits and '-' is not
            have : Char.isDigit '-' = true := by
              apply hdig; rw [← h]; simp
            exact absurd this (by decide)
          · have : rest = ds := by injection h
            subst this
            exact ⟨by simpa using hds, List.all_eq_true.mpr hdig⟩
      · have hcb : (c == '-') = false := by simpa using hc
        simp only [numericChatMatches, hcb, if_neg, Bool.false_eq_true,
          if_false]
        constructor
        · intro hall
          refine ⟨c :: rest, by simp, List.all_eq_true.mp hall, Or.inl rfl⟩
        · rintro ⟨ds, hds, hdig, h | h⟩
          · rw [h]; exact List.all_eq_true.mpr hdig
          · have : c = '-' := by injection h
            exact absurd this hc

theorem handleChatMatches_iff (cs : List Char) :
    handleChatMatches cs = true ↔
      (∃ tl, tl ≠ [] ∧ (∀ c ∈ tl, isHandleChar c = true) ∧ cs = '@' :: tl) := by
  cases cs with
  | nil =>
      simp only [handleChatMatches]
      constructor
      · intro h; exact absurd h (by simp)
      · rintro ⟨tl, _, _, h⟩; exact absurd h (by simp)
  | cons c rest =>
      simp only [handleChatMatches, Bool.and_eq_true, beq_iff_eq]
      constructor
      · rintro ⟨⟨hc, hne⟩, hall⟩
        exact ⟨rest, by simpa using hne, List.all_eq_true.mp hall, by rw [hc]⟩
      · rintro ⟨tl, htl, hall, h⟩
        have hc : c = '@' := by injection h
        have hr : rest = tl := by injection h
        subst hc; subst hr
        exact ⟨⟨rfl, by simpa using htl⟩, List.all_eq_true.mpr hall⟩

theorem chatIdMatches_iff (s : String) :
    chatIdMatches s = true ↔ ChatIdRegexSpec s := by
  unfold chatIdMatches ChatIdRegexSpec
  rw [Bool.or_eq_true, numericChatMatches_iff, handleChatMatches_iff]

theorem tokenRegexSpec_ne_empty {s : String} (h : TokenRegexSpec s) :
    s.data ≠ [] := by
  obtain ⟨ds, rest, hsplit, _, _, _, _⟩ := h
  rw [hsplit]
  simp

theorem chatIdRegexSpec_ne_empty {s : String} (h : ChatIdRegexSpec s) :
    s.data ≠ [] := by
  rcases h with ⟨ds, hds, _, hcase | hcase⟩ | ⟨tl, _, _, hcase⟩ <;>
    rw [hcase] <;> simp_all

/-- C6: the credential validator returns true exactly when the bot token
matches `^\d+:[A-Za-z0-9_-]+$` and the chat id matches `^-?\d+$` or
`^@[A-Za-z0-9_]+$`; in particular it accepts
("123456789:ABC-DEF1234ghIkl-zyx57W2v1u123ew11", "-1001234567890"),
rejects ("not-a-token", "@mychannel"), and accepts ("123:abc", "@user_name"). -/
theorem credential_validation_characterization :
    (∀ t c, validateTelegramCredentials t c = true ↔
       TokenRegexSpec t ∧ ChatIdRegexSpec c) ∧
    validateTelegramCredentials "123456789:ABC-DEF1234ghIkl-zyx57W2v1u123ew11"
      "-1001234567890" = true ∧
    validateTelegramCredentials "not-a-token" "@mychannel" = false ∧
    validateTelegramCredentials "123:abc" "@user_name" = true := by
  refine ⟨?_, by decide, by decide, by decide⟩
  intro t c
  unfold validateTelegramCredentials
  constructor
  · intro h
    by_cases he : (t.data.isEmpty || c.data.isEmpty) = true
    · rw [if_pos he] at h; exact absurd h (by simp)
    · rw [if_neg he] at h
      by_cases ht : tokenMatches t = true
      · rw [if_neg (by simp [ht])] at h
        by_cases hc : chatIdMatches c = true
        · exact ⟨(tokenMatches_iff t).mp ht, (chatIdMatches_iff c).mp hc⟩
        · rw [if_pos (by simpa using hc)] at h
          exact absurd h (by simp)
      · rw [if_pos (by simpa using ht)] at h
        exact absurd h (by simp)
  · rintro ⟨ht, hc⟩
    have ht' := (tokenMatches_iff t).mpr ht
    have hc' := (chatIdMatches_iff c).mpr hc
    have hte : t.data.isEmpty = false := by
      have := tokenRegexSpec_ne_empty ht; cases hd : t.data with
      | nil => exact absurd hd this
      | cons a as => simp
    have hce : c.data.isEmpty = false := by
      have := chatIdRegexSpec_ne_empty hc; cases hd : c.data with
      | nil => exact absurd hd this
      | cons a as => simp
    rw [if_neg (by simp [hte, hce]), if_neg (by simp [ht']),
      if_neg (by simp [hc'])]

/-! ## Publisher claims -/

theorem publishPost_eq_error (channels : List Channel) (nowIso : String)
    (transport : Transport) (post : Post)
    (hf : channels.find? (fun c => c.id == post.channelId) = none) :
    publishPost channels nowIso transport post
      = .error channelNotFoundMsg := by
  rw [publishPost.eq_def, hf]

theorem publishPost_eq_found (channels : List Channel) (nowIso : String)
    (transport : Transport) (post : Post) (channel : Channel)
    (hf : channels.find? (fun c => c.id == post.channelId) = some channel) :
    publishPost channels nowIso transport post
      = publishChannelPost channel nowIso transport post := by
  rw [publishPost.eq_def, hf]

/-- C2 counterexample: when the post's channel is not among the known
channels, `publishPost` rejects (propagates an error past its boundary)
instead of resolving to a failed post, so the publisher is not total as
claimed. -/
theorem publishPost_rejects_on_missing_channel :
    publishPost [] "2024-01-01T09:29:00Z" alwaysOkTransport examplePost =
      Except.error channelNotFoundMsg := rfl

/-- C2 (amended): whenever the post's channel is found, `publishPost`
resolves to a post whose status is published or failed regardless of the
transport's behaviour — malformed credentials, thrown transport errors,
null envelopes and `ok:false` envelopes included; only a missing channel
makes it reject. -/
theorem publishPost_total_when_channel_exists
    (channels : List Channel) (nowIso : String) (transport : Transport)
    (post : Post)
    (h : (channels.find? (fun c => c.id == post.channelId)).isSome = true) :
    ∃ p, publishPost channels nowIso transport post = .ok p ∧
      (p.status = .published ∨ p.status = .failed) := by
  cases hf : channels.find? (fun c => c.id == post.channelId) with
  | none => rw [hf] at h; exact absurd h (by simp)
  | some channel =>
    rw [publishPost_eq_found channels nowIso transport post channel hf]
    unfold publishChannelPost
    by_cases hcred :
        validateTelegramCredentials channel.botToken channel.chatId = false
    · rw [if_pos hcred]; exact ⟨_, rfl, Or.inr rfl⟩
    · rw [if_neg hcred]
      refine ⟨_, rfl, ?_⟩
      cases ht : transport (publishRequest channel post) with
      | throws m => exact Or.inr rfl
      | returns r =>
        cases r with
        | none => exact Or.inr rfl
        | some tr =>
          simp only [outcomePost]
          by_cases hok : tr.ok = false
          · rw [if_pos hok]; exact Or.inr rfl
          · rw [if_neg hok]; exact Or.inl rfl

/-- C2 witness: the amended totality theorem at a concrete channel, post
and throwing transport. -/
theorem publishPost_total_when_channel_exists_witness :
    ([exampleChannel].find? (fun c => c.id == examplePost.channelId)).isSome
        = true ∧
    ∃ p, publishPost [exampleChannel] "2024-01-01T09:29:00Z"
        alwaysThrowTransport examplePost = .ok p ∧
      (p.status = .published ∨ p.status = .failed) :=
  ⟨by decide,
   publishPost_total_when_channel_exists [exampleChannel] "2024-01-01T09:29:00Z"
     alwaysThrowTransport examplePost (by decide)⟩

/-- C5: the Publisher sends a photo+caption request exactly when the post
carries a nonempty image URL different from the placeholder sentinel and a
text-only request with the post's text otherwise; the cron variant sends a
photo exactly when the stored image URL is present, nonempty and does not
contain "placehold". -/
theorem publisher_transport_shape :
    (∀ channel post, (publishRequest channel post).isPhoto = true ↔
       (post.imageUrl ≠ "" ∧ post.imageUrl ≠ placeholderUrl)) ∧
    (∀ channel post, (publishRequest channel post).isPhoto = false →
       publishRequest channel post =
         .sendMessage channel.botToken channel.chatId post.text) ∧
    (∀ botToken chatId imageUrl text,
       (cronPublishRequest botToken chatId imageUrl text).isPhoto = true ↔
         ∃ u, imageUrl = some u ∧ u ≠ "" ∧ strContains u "placehold" = false) ∧
    (∀ botToken chatId imageUrl text,
       (cronPublishRequest botToken chatId imageUrl text).isPhoto = false →
         cronPublishRequest botToken chatId imageUrl text =
           .sendMessage botToken chatId text) := by
  refine ⟨?_, ?_, ?_, ?_⟩
  · intro channel post
    unfold publishRequest
    by_cases hcond : post.imageUrl ≠ "" ∧ post.imageUrl ≠ placeholderUrl
    · rw [if_pos hcond]
      simpa [TgRequest.isPhoto] using hcond
    · rw [if_neg hcond]
      simpa [TgRequest.isPhoto] using hcond
  · intro channel post h
    unfold publishRequest at h ⊢
    by_cases hcond : post.imageUrl ≠ "" ∧ post.imageUrl ≠ placeholderUrl
    · rw [if_pos hcond] at h
      exact absurd h (by simp [TgRequest.isPhoto])
    · rw [if_neg hcond]
  · intro botToken chatId imageUrl text
    cases imageUrl with
    | none => simp [cronPublishRequest, TgRequest.isPhoto]
    | some u =>
      simp only [cronPublishRequest]
      by_cases hcond : u ≠ "" ∧ strContains u "placehold" = false
      · rw [if_pos hcond]
        simp only [TgRequest.isPhoto, true_iff]
        exact ⟨u, rfl, hcond.1, hcond.2⟩
      · rw [if_neg hcond]
        simp only [TgRequest.isPhoto]
        constructor
        · intro hfalse; exact absurd hfalse (by simp)
        · rintro ⟨u', hu', hne, hpl⟩
          injection hu' with h'
          subst h'
          exact absurd ⟨hne, hpl⟩ hcond
  · intro botToken chatId imageUrl text h
    cases imageUrl with
    | none => rfl
    | some u =>
      simp only [cronPublishRequest] at h ⊢
      by_cases hcond : u ≠ "" ∧ strContains u "placehold" = false
      · rw [if_pos hcond] at h
        exact absurd h (by simp [TgRequest.isPhoto])
      · rw [if_neg hcond]

/-- C5 witness: a generated post carrying a non-placeholder image URL is
sent as a photo. -/
theorem publisher_transport_shape_witness :
    (examplePhotoPost.imageUrl ≠ "" ∧
       examplePhotoPost.imageUrl ≠ placeholderUrl) ∧
    (publishRequest exampleChannel examplePhotoPost).isPhoto = true :=
  ⟨by decide,
   (publisher_transport_shape.1 exampleChannel examplePhotoPost).mpr (by decide)⟩

/-- C8: whenever a publish attempt resolves to a failed post, the error
field is populated — with the transport error message when the transport
threw and with the API-provided description when the envelope was
`ok:false` (given the credentials were valid) — while publishedAt and
telegramPostId keep their unset input values. -/
theorem publish_failure_postcondition
    (channels : List Channel) (nowIso : String) (transport : Transport)
    (post p : Post)
    (hres : publishPost channels nowIso transport post = .ok p)
    (hfail : p.status = .failed) :
    p.error.isSome = true ∧
    p.publishedAt = post.publishedAt ∧
    p.telegramPostId = post.telegramPostId ∧
    ∀ channel, channels.find? (fun c => c.id == post.channelId) = some channel →
      validateTelegramCredentials channel.botToken channel.chatId = true →
      ((∀ m, transport (publishRequest channel post) = .throws m →
          p.error = some (publishFailureMsg (apiErrorMsg m))) ∧
       (∀ r, transport (publishRequest channel post) = .returns (some r) →
          r.ok = false →
          p.error = some (publishFailureMsg
            (tgReturnedErrorMsg r.description)))) := by
  cases hf : channels.find? (fun c => c.id == post.channelId) with
  | none =>
      rw [publishPost_eq_error channels nowIso transport post hf] at hres
      exact absurd hres (by simp)
  | some channel =>
      rw [publishPost_eq_found channels nowIso transport post channel hf]
        at hres
      unfold publishChannelPost at hres
      by_cases hcred :
          validateTelegramCredentials channel.botToken channel.chatId = false
      · rw [if_pos hcred] at hres
        injection hres with hp
        subst hp
        refine ⟨rfl, rfl, rfl, ?_⟩
        intro channel' hfind' hcred'
        injection hfind' with hcc
        subst hcc
        rw [hcred'] at hcred
        exact absurd hcred (by simp)
      · rw [if_neg hcred] at hres
        injection hres with hp
        subst hp
        cases ht : transport (publishRequest channel post) with
        | throws m =>
            refine ⟨rfl, rfl, rfl, ?_⟩
            intro channel' hfind' _
            injection hfind' with hcc
            subst hcc
            constructor
            · intro m' hm'
              rw [ht] at hm'
              injection hm' with hmm
              subst hmm
              rfl
            · intro r hr _
              rw [ht] at hr
              exact absurd hr (by simp)
        | returns ores =>
            cases ores with
            | none =>
                refine ⟨rfl, rfl, rfl, ?_⟩
                intro channel' hfind' _
                injection hfind' with hcc
                subst hcc
                constructor
                · intro m' hm'
                  rw [ht] at hm'
                  exact absurd hm' (by simp)
                · intro r hr _
                  rw [ht] at hr
                  exact absurd hr (by simp)
            | some tr =>
                rw [ht] at hfail
                simp only [outcomePost] at hfail ⊢
                by_cases hok : tr.ok = false
                · rw [if_pos hok] at hfail ⊢
                  refine ⟨rfl, rfl, rfl, ?_⟩
                  intro channel' hfind' _
                  injection hfind' with hcc
                  subst hcc
                  constructor
                  · intro m' hm'
                    rw [ht] at hm'
                    exact absurd hm' (by simp)
                  · intro r hr hrok
                    rw [ht] at hr
                    injection hr with hr'
                    injection hr' with hr''
                    subst hr''
                    rfl
                · rw [if_neg hok] at hfail
                  simp [publishedWith] at hfail

/-- C8 witness: a concrete `ok:false` envelope with a description yields a
failed post whose error embeds that description and whose publishedAt and
telegramPostId stay unset. -/
theorem publish_failure_postcondition_witness :
    (publishPost [exampleChannel] "2024-01-01T09:29:00Z" okFalseTransport
        examplePost = .ok exampleFailedPost ∧
      exampleFailedPost.status = .failed) ∧
    (exampleFailedPost.error.isSome = true ∧
     exampleFailedPost.publishedAt = examplePost.publishedAt ∧
     exampleFailedPost.telegramPostId = examplePost.telegramPostId ∧
     ∀ channel,
       [exampleChannel].find? (fun c => c.id == examplePost.channelId)
           = some channel →
       validateTelegramCredentials channel.botToken channel.chatId = true →
       ((∀ m, okFalseTransport (publishRequest channel examplePost)
            = .throws m →
          exampleFailedPost.error
            = some (publishFailureMsg (apiErrorMsg m))) ∧
        (∀ r, okFalseTransport (publishRequest channel examplePost)
            = .returns (some r) → r.ok = false →
          exampleFailedPost.error = some (publishFailureMsg
            (tgReturnedErrorMsg r.description))))) :=
  ⟨⟨rfl, rfl⟩,
   publish_failure_postcondition [exampleChannel] "2024-01-01T09:29:00Z"
     okFalseTransport examplePost exampleFailedPost rfl rfl⟩

/-! ## Schedule settings claims -/

theorem schedule_any_mem (schedule : List ScheduleTime) (h m : Nat) :
    (schedule.any (fun t => t.hour == h && t.minute == m) = true) ↔
      (⟨h, m⟩ : ScheduleTime) ∈ schedule := by
  rw [List.any_eq_true]
  constructor
  · rintro ⟨t, ht, hp⟩
    simp only [Bool.and_eq_true, beq_iff_eq] at hp
    have : t = ⟨h, m⟩ := by cases t; simp_all
    rw [← this]; exact ht
  · intro hm
    exact ⟨⟨h, m⟩, hm, by simp⟩

theorem schedLT_of_schedBefore_ne {a b : ScheduleTime}
    (hr : schedBefore a b) (hne : a ≠ b) : schedLT a b := by
  obtain ⟨ah, am⟩ := a
  obtain ⟨bh, bm⟩ := b
  unfold schedBefore at hr
  unfold schedLT
  simp only [ne_eq, ScheduleTime.mk.injEq] at hne hr ⊢
  omega

theorem schedLT_ne {a b : ScheduleTime} (h : schedLT a b) : a ≠ b := by
  obtain ⟨ah, am⟩ := a
  obtain ⟨bh, bm⟩ := b
  unfold schedLT at h
  simp only [ne_eq, ScheduleTime.mk.injEq] at h ⊢
  omega

theorem StrictlySorted.nodup {l : List ScheduleTime} (h : StrictlySorted l) :
    l.Nodup :=
  List.Pairwise.imp (fun hab => schedLT_ne hab) h

/-- C7: starting from a strictly sorted schedule, both the add and the
remove operation keep the schedule strictly sorted ascending by
(hour, minute), and adding an (hour, minute) pair already present is
rejected and returns the schedule unchanged. -/
theorem schedule_add_remove_invariant (schedule : List ScheduleTime)
    (hour minute index : Nat) (hs : StrictlySorted schedule) :
    StrictlySorted (handleAddTime schedule hour minute) ∧
    StrictlySorted (handleRemoveTime schedule index) ∧
    ((⟨hour, minute⟩ : ScheduleTime) ∈ schedule →
       handleAddTime schedule hour minute = schedule) := by
  refine ⟨?_, ?_, ?_⟩
  · unfold handleAddTime
    by_cases hdup :
        schedule.any (fun t => t.hour == hour && t.minute == minute) = true
    · rw [if_pos hdup]; exact hs
    · rw [if_neg hdup]
      have hsorted : List.Sorted schedBefore
          (List.insertionSort schedBefore (schedule ++ [⟨hour, minute⟩])) :=
        List.sorted_insertionSort schedBefore _
      have hmem : (⟨hour, minute⟩ : ScheduleTime) ∉ schedule := by
        intro hm
        exact hdup ((schedule_any_mem schedule hour minute).mpr hm)
      have hnd : (schedule ++ [(⟨hour, minute⟩ : ScheduleTime)]).Nodup := by
        rw [List.nodup_append]
        refine ⟨hs.nodup, List.nodup_singleton _, ?_⟩
        intro a ha hb
        simp only [List.mem_singleton] at hb
        subst hb
        exact hmem ha
      have hnd' :
          (List.insertionSort schedBefore (schedule ++ [⟨hour, minute⟩])).Nodup :=
        ((List.perm_insertionSort schedBefore _).symm).nodup hnd
      exact List.Pairwise.imp
        (fun hab => schedLT_of_schedBefore_ne hab.1 hab.2)
        (hsorted.and hnd')
  · exact List.Pairwise.sublist (List.eraseIdx_sublist schedule index) hs
  · intro hm
    unfold handleAddTime
    rw [if_pos ((schedule_any_mem schedule hour minute).mpr hm)]

/-- C7 witness: the invariant applied to a concrete strictly sorted
schedule, a fresh pair, a removal position and a duplicate pair. -/
theorem schedule_add_remove_invariant_witness :
    StrictlySorted exampleSortedSchedule ∧
    StrictlySorted (handleAddTime exampleSortedSchedule 10 45) ∧
    StrictlySorted (handleRemoveTime exampleSortedSchedule 1) ∧
    ((⟨9, 0⟩ : ScheduleTime) ∈ exampleSortedSchedule →
       handleAddTime exampleSortedSchedule 9 0 = exampleSortedSchedule) :=
  ⟨by decide,
   (schedule_add_remove_invariant exampleSortedSchedule 10 45 1 (by decide)).1,
   (schedule_add_remove_invariant exampleSortedSchedule 10 45 1 (by decide)).2.1,
   (schedule_add_remove_invariant exampleSortedSchedule 9 0 1 (by decide)).2.2⟩

theorem natLog2Aux_spec (fuel : Nat) : ∀ n, 1 ≤ n → n ≤ fuel →
    2 ^ natLog2Aux fuel n ≤ n ∧ n < 2 ^ (natLog2Aux fuel n + 1) := by
  induction fuel with
  | zero => intro n h1 h2; omega
  | succ fuel ih =>
    intro n h1 h2
    unfold natLog2Aux
    split_ifs with h
    · have hn : n = 1 := by omega
      subst hn
      norm_num
    · have hrec := ih (n / 2) (by omega) (by omega)
      have e1 : 2 ^ (natLog2Aux fuel (n / 2) + 1) =
          2 * 2 ^ natLog2Aux fuel (n / 2) := by ring
      have e2 : 2 ^ (natLog2Aux fuel (n / 2) + 1 + 1) =
          2 * 2 ^ (natLog2Aux fuel (n / 2) + 1) := by ring
      omega

theorem natLog2_spec (n : Nat) (h1 : 1 ≤ n) :
    2 ^ natLog2 n ≤ n ∧ n < 2 ^ (natLog2 n + 1) :=
  natLog2Aux_spec n n h1 (le_refl n)

namespace Frac

theorem toRat_ofNat (k : Nat) : (ofNat k).toRat = (k : ℚ) := by
  unfold ofNat toRat
  norm_num

theorem toRat_ofInt (k : Int) : (ofInt k).toRat = (k : ℚ) := by
  unfold ofInt toRat
  norm_num

theorem toRat_mul (p q : Frac) (hp : p.den ≠ 0) (hq : q.den ≠ 0) :
    (p.mul q).toRat = p.toRat * q.toRat := by
  unfold mul toRat
  have hp' : ((p.den : ℚ)) ≠ 0 := Nat.cast_ne_zero.mpr hp
  have hq' : ((q.den : ℚ)) ≠ 0 := Nat.cast_ne_zero.mpr hq
  push_cast
  field_simp

theorem toRat_add (p q : Frac) (hp : p.den ≠ 0) (hq : q.den ≠ 0) :
    (p.add q).toRat = p.toRat + q.toRat := by
  unfold add toRat
  have hp' : ((p.den : ℚ)) ≠ 0 := Nat.cast_ne_zero.mpr hp
  have hq' : ((q.den : ℚ)) ≠ 0 := Nat.cast_ne_zero.mpr hq
  push_cast
  field_simp

theorem toRat_sub (p q : Frac) (hp : p.den ≠ 0) (hq : q.den ≠ 0) :
    (p.sub q).toRat = p.toRat - q.toRat := by
  unfold sub toRat
  have hp' : ((p.den : ℚ)) ≠ 0 := Nat.cast_ne_zero.mpr hp
  have hq' : ((q.den : ℚ)) ≠ 0 := Nat.cast_ne_zero.mpr hq
  push_cast
  field_simp
  ring

theorem toRat_div (p q : Frac) (hp : p.den ≠ 0) (hq : q.den ≠ 0)
    (hqn : 0 < q.num) : (p.div q).toRat = p.toRat / q.toRat := by
  unfold div toRat
  have hp' : ((p.den : ℚ)) ≠ 0 := Nat.cast_ne_zero.mpr hp
  have hq' : ((q.den : ℚ)) ≠ 0 := Nat.cast_ne_zero.mpr hq
  have hqn' : ((q.num : ℚ)) ≠ 0 := by
    exact_mod_cast hqn.ne'
  have htn : ((q.num.toNat : ℕ) : ℚ) = (q.num : ℚ) := by
    exact_mod_cast Int.toNat_of_nonneg hqn.le
  push_cast
  rw [htn]
  field_simp

theorem floor_eq (p : Frac) : p.floor = ⌊p.toRat⌋ := by
  unfold floor toRat
  exact (Rat.floor_intCast_div_natCast p.num p.den).symm

theorem round_le (p : Frac) (hd : 0 < p.den) :
    (p.round : ℚ) ≤ p.toRat + 1 / 2 := by
  have hdq : (0 : ℚ) < ((p.den : ℕ) : ℚ) := by exact_mod_cast hd
  have hid : (p.den : ℤ) * (p.num / (p.den : ℤ)) + p.num % (p.den : ℤ) = p.num :=
    Int.ediv_add_emod p.num (p.den : ℤ)
  have hr0 : 0 ≤ p.num % (p.den : ℤ) := Int.emod_nonneg p.num (by omega)
  have hrd : p.num % (p.den : ℤ) < (p.den : ℤ) := Int.emod_lt_of_pos p.num (by omega)
  have hval : p.toRat = ((p.num / (p.den : ℤ) : ℤ) : ℚ)
      + ((p.num % (p.den : ℤ) : ℤ) : ℚ) / ((p.den : ℕ) : ℚ) := by
    unfold toRat
    conv_lhs => rw [← hid]
    push_cast
    field_simp
    ring
  have hrq : (0 : ℚ) ≤ ((p.num % (p.den : ℤ) : ℤ) : ℚ) / ((p.den : ℕ) : ℚ) := by
    apply div_nonneg _ hdq.le
    exact_mod_cast hr0
  unfold round
  split_ifs with h1 h2 h3
  · rw [hval]
    push_cast
    linarith
  · have hlt : 1 / 2 * ((p.den : ℕ) : ℚ) < ((p.num % (p.den : ℤ) : ℤ) : ℚ) := by
      have hc : ((p.den : ℤ) : ℚ) < ((2 * (p.num % (p.den : ℤ)) : ℤ) : ℚ) := by
        exact_mod_cast h2
      push_cast at hc ⊢
      linarith
    have hgt : 1 / 2 < ((p.num % (p.den : ℤ) : ℤ) : ℚ) / ((p.den : ℕ) : ℚ) :=
      (lt_div_iff hdq).mpr (by linarith)
    rw [hval]
    push_cast
    linarith
  · rw [hval]
    push_cast
    linarith
  · have heq2 : 2 * (p.num % (p.den : ℤ)) = (p.den : ℤ) := by omega
    have heq : ((p.num % (p.den : ℤ) : ℤ) : ℚ) / ((p.den : ℕ) : ℚ) = 1 / 2 := by
      rw [div_eq_iff hdq.ne']
      have hc : ((2 * (p.num % (p.den : ℤ)) : ℤ) : ℚ) = ((p.den : ℤ) : ℚ) := by
        exact_mod_cast congrArg (fun z : ℤ => (z : ℚ)) heq2
      push_cast at hc ⊢
      linarith
    rw [hval, heq]
    push_cast
    linarith

theorem le_round (p : Frac) (hd : 0 < p.den) :
    p.toRat - 1 / 2 ≤ (p.round : ℚ) := by
  have hdq : (0 : ℚ) < ((p.den : ℕ) : ℚ) := by exact_mod_cast hd
  have hid : (p.den : ℤ) * (p.num / (p.den : ℤ)) + p.num % (p.den : ℤ) = p.num :=
    Int.ediv_add_emod p.num (p.den : ℤ)
  have hr0 : 0 ≤ p.num % (p.den : ℤ) := Int.emod_nonneg p.num (by omega)
  have hrd : p.num % (p.den : ℤ) < (p.den : ℤ) := Int.emod_lt_of_pos p.num (by omega)
  have hval : p.toRat = ((p.num / (p.den : ℤ) : ℤ) : ℚ)
      + ((p.num % (p.den : ℤ) : ℤ) : ℚ) / ((p.den : ℕ) : ℚ) := by
    unfold toRat
    conv_lhs => rw [← hid]
    push_cast
    field_simp
    ring
  have hrlt : ((p.num % (p.den : ℤ) : ℤ) : ℚ) / ((p.den : ℕ) : ℚ) < 1 := by
    rw [div_lt_one hdq]
    exact_mod_cast hrd
  unfold round
  split_ifs with h1 h2 h3
  · have hlt : ((p.num % (p.den : ℤ) : ℤ) : ℚ) < 1 / 2 * ((p.den : ℕ) : ℚ) := by
      have hc : ((2 * (p.num % (p.den : ℤ)) : ℤ) : ℚ) < ((p.den : ℤ) : ℚ) := by
        exact_mod_cast h1
      push_cast at hc ⊢
      linarith
    have hgt : ((p.num % (p.den : ℤ) : ℤ) : ℚ) / ((p.den : ℕ) : ℚ) < 1 / 2 :=
      (div_lt_iff hdq).mpr (by linarith)
    rw [hval]
    push_cast
    linarith
  · rw [hval]
    push_cast
    linarith
  · have heq2 : 2 * (p.num % (p.den : ℤ)) = (p.den : ℤ) := by omega
    have heq : ((p.num % (p.den : ℤ) : ℤ) : ℚ) / ((p.den : ℕ) : ℚ) = 1 / 2 := by
      rw [div_eq_iff hdq.ne']
      have hc : ((2 * (p.num % (p.den : ℤ)) : ℤ) : ℚ) = ((p.den : ℤ) : ℚ) := by
        exact_mod_cast congrArg (fun z : ℤ => (z : ℚ)) heq2
      push_cast at hc ⊢
      linarith
    rw [hval, heq]
    push_cast
    linarith
  · rw [hval]
    push_cast
    linarith

theorem round_nonneg (p : Frac) (hn : 0 ≤ p.num) : 0 ≤ p.round := by
  unfold round
  have h1 : 0 ≤ p.num / (p.den : ℤ) := Int.ediv_nonneg hn (by omega)
  split_ifs <;> omega

theorem num_pos (p : Frac) (hd : 0 < p.den) (hv : 0 < p.toRat) : 0 < p.num := by
  by_contra h
  push_neg at h
  have hn' : ((p.num : ℤ) : ℚ) ≤ 0 := by exact_mod_cast h
  have hd' : (0 : ℚ) ≤ ((p.den : ℕ) : ℚ) := by positivity
  have : p.toRat ≤ 0 := div_nonpos_iff.mpr (Or.inr ⟨hn', hd'⟩)
  linarith

theorem toRat_nonneg (p : Frac) (hn : 0 ≤ p.num) : 0 ≤ p.toRat := by
  unfold toRat
  apply div_nonneg _ (by positivity)
  exact_mod_cast hn

theorem lt2_iff (p : Frac) (hd : 0 < p.den) (e : Int) :
    p.lt2 e = true ↔ p.toRat < (2 : ℚ) ^ e := by
  have hdq : (0 : ℚ) < ((p.den : ℕ) : ℚ) := by exact_mod_cast hd
  unfold lt2 toRat
  split_ifs with h
  · simp only [decide_eq_true_eq]
    rw [div_lt_iff hdq]
    rw [show (2 : ℚ) ^ e = (((2 ^ e.toNat : ℕ) : ℤ) : ℚ) by
      push_cast
      rw [← zpow_natCast (2 : ℚ) e.toNat, Int.toNat_of_nonneg h]]
    constructor
    · intro hlt
      have : ((p.num : ℤ) : ℚ) < (((2 ^ e.toNat : ℕ) : ℤ) : ℚ) * ((p.den : ℕ) : ℚ) := by
        exact_mod_cast hlt
      exact this
    · intro hlt
      exact_mod_cast hlt
  · push_neg at h
    simp only [decide_eq_true_eq]
    have h2q : (0 : ℚ) < (((2 ^ (-e).toNat : ℕ) : ℤ) : ℚ) := by positivity
    rw [div_lt_iff hdq]
    rw [show (2 : ℚ) ^ e = ((((2 ^ (-e).toNat : ℕ) : ℤ) : ℚ))⁻¹ by
      push_cast
      rw [← zpow_natCast (2 : ℚ) (-e).toNat, Int.toNat_of_nonneg (by omega), ← zpow_neg]
      congr 1
      omega]
    rw [inv_mul_eq_div, lt_div_iff h2q]
    constructor
    · intro hlt
      have : ((p.num : ℤ) : ℚ) * (((2 ^ (-e).toNat : ℕ) : ℤ) : ℚ) < ((p.den : ℕ) : ℚ) := by
        exact_mod_cast hlt
      linarith
    · intro hlt
      have : ((p.num : ℤ) : ℚ) * (((2 ^ (-e).toNat : ℕ) : ℤ) : ℚ) < ((p.den : ℕ) : ℚ) := by
        linarith
      exact_mod_cast this

theorem log2Guess_bounds (p : Frac) (hn : 0 < p.num) (hd : 0 < p.den) :
    (2 : ℚ) ^ (p.log2Guess - 1) < p.toRat ∧ p.toRat < (2 : ℚ) ^ (p.log2Guess + 1) := by
  obtain ⟨ha1, ha2⟩ := natLog2_spec p.num.toNat (by omega)
  obtain ⟨hb1, hb2⟩ := natLog2_spec p.den (by omega)
  have hdq : (0 : ℚ) < ((p.den : ℕ) : ℚ) := by exact_mod_cast hd
  have hnum : ((p.num.toNat : ℕ) : ℚ) = (p.num : ℚ) := by
    exact_mod_cast Int.toNat_of_nonneg hn.le
  have hA1 : (2 : ℚ) ^ (natLog2 p.num.toNat : ℕ) ≤ (p.num : ℚ) := by
    rw [← hnum]
    exact_mod_cast ha1
  have hA2 : (p.num : ℚ) < (2 : ℚ) ^ (natLog2 p.num.toNat + 1 : ℕ) := by
    rw [← hnum]
    exact_mod_cast ha2
  have hB1 : (2 : ℚ) ^ (natLog2 p.den : ℕ) ≤ ((p.den : ℕ) : ℚ) := by exact_mod_cast hb1
  have hB2 : ((p.den : ℕ) : ℚ) < (2 : ℚ) ^ (natLog2 p.den + 1 : ℕ) := by exact_mod_cast hb2
  have hA0 : (0 : ℚ) < (p.num : ℚ) := by exact_mod_cast hn
  constructor
  · have he : (2 : ℚ) ^ (p.log2Guess - 1) =
        (2 : ℚ) ^ (natLog2 p.num.toNat : ℕ) / (2 : ℚ) ^ (natLog2 p.den + 1 : ℕ) := by
      rw [eq_div_iff (by positivity), ← zpow_natCast (2 : ℚ) (natLog2 p.num.toNat),
        ← zpow_natCast (2 : ℚ) (natLog2 p.den + 1), ← zpow_add₀ (two_ne_zero : (2 : ℚ) ≠ 0)]
      congr 1
      unfold log2Guess
      push_cast
      ring
    unfold toRat
    rw [he, div_lt_div_iff (by positivity) hdq]
    calc (2 : ℚ) ^ (natLog2 p.num.toNat : ℕ) * ((p.den : ℕ) : ℚ)
        ≤ (p.num : ℚ) * ((p.den : ℕ) : ℚ) := mul_le_mul_of_nonneg_right hA1 hdq.le
      _ < (p.num : ℚ) * (2 : ℚ) ^ (natLog2 p.den + 1 : ℕ) :=
        mul_lt_mul_of_pos_left hB2 hA0
  · have he : (2 : ℚ) ^ (p.log2Guess + 1) =
        (2 : ℚ) ^ (natLog2 p.num.toNat + 1 : ℕ) / (2 : ℚ) ^ (natLog2 p.den : ℕ) := by
      rw [eq_div_iff (by positivity), ← zpow_natCast (2 : ℚ) (natLog2 p.num.toNat + 1),
        ← zpow_natCast (2 : ℚ) (natLog2 p.den), ← zpow_add₀ (two_ne_zero : (2 : ℚ) ≠ 0)]
      congr 1
      unfold log2Guess
      push_cast
      ring
    unfold toRat
    rw [he, div_lt_div_iff hdq (by positivity)]
    calc (p.num : ℚ) * (2 : ℚ) ^ (natLog2 p.den : ℕ)
        ≤ (p.num : ℚ) * ((p.den : ℕ) : ℚ) := mul_le_mul_of_nonneg_left hB1 hA0.le
      _ < (2 : ℚ) ^ (natLog2 p.num.toNat + 1 : ℕ) * ((p.den : ℕ) : ℚ) :=
        mul_lt_mul_of_pos_right hA2 hdq

theorem flog_spec (p : Frac) (hn : 0 < p.num) (hd : 0 < p.den) :
    (2 : ℚ) ^ p.flog ≤ p.toRat ∧ p.toRat < (2 : ℚ) ^ (p.flog + 1) := by
  obtain ⟨hlo, hhi⟩ := log2Guess_bounds p hn hd
  unfold flog
  split_ifs with h1 h2
  · rw [lt2_iff p hd] at h1
    refine ⟨hlo.le, ?_⟩
    rw [show p.log2Guess - 1 + 1 = p.log2Guess from by ring]
    exact h1
  · exfalso
    rw [Bool.not_eq_true'] at h2
    have h2' : ¬ (p.lt2 (p.log2Guess + 1) = true) := by simp [h2]
    rw [lt2_iff p hd] at h2'
    exact h2' hhi
  · have h1' : ¬ (p.lt2 p.log2Guess = true) := h1
    rw [lt2_iff p hd] at h1'
    push_neg at h1'
    exact ⟨h1', hhi⟩

theorem dyadic_den_pos (m e : Int) : 0 < (dyadic m e).den := by
  unfold dyadic
  split_ifs
  · exact Nat.one_pos
  · exact pow_pos (by norm_num) _

theorem dyadic_num_nonneg (m e : Int) (hm : 0 ≤ m) : 0 ≤ (dyadic m e).num := by
  unfold dyadic
  split_ifs
  · positivity
  · exact hm

theorem toRat_dyadic (m e : Int) : (dyadic m e).toRat = (m : ℚ) * (2 : ℚ) ^ e := by
  unfold dyadic toRat
  split_ifs with h
  · push_cast
    rw [← zpow_natCast (2 : ℚ) e.toNat, Int.toNat_of_nonneg h, div_one]
  · push_cast
    rw [← zpow_natCast (2 : ℚ) (-e).toNat, Int.toNat_of_nonneg (by omega),
      div_eq_mul_inv, ← zpow_neg, neg_neg]

theorem fl_den_pos (p : Frac) : 0 < (fl p).den := by
  unfold fl
  split_ifs
  · exact Nat.one_pos
  · exact dyadic_den_pos _ _

theorem toRat_fl (p : Frac) (hn : 0 < p.num) :
    (fl p).toRat = ((p.mul (dyadic 1 (-p.flExp))).round : ℚ) * (2 : ℚ) ^ p.flExp := by
  unfold fl
  rw [if_neg (by omega)]
  exact toRat_dyadic _ _

theorem scaled_toRat (p : Frac) (hd : 0 < p.den) (e : Int) :
    (p.mul (dyadic 1 (-e))).toRat = p.toRat * (2 : ℚ) ^ (-e) := by
  rw [toRat_mul p _ (by omega) (by have := dyadic_den_pos 1 (-e); omega), toRat_dyadic]
  push_cast
  ring

theorem fl_toRat_nonneg (p : Frac) : 0 ≤ (fl p).toRat := by
  unfold fl
  split_ifs with h
  · norm_num [toRat]
  · push_neg at h
    rw [toRat_dyadic]
    have hs : 0 ≤ (p.mul (dyadic 1 (-p.flExp))).round := by
      apply round_nonneg
      exact mul_nonneg h.le (dyadic_num_nonneg 1 _ (by norm_num))
    have h2 : (0 : ℚ) < (2 : ℚ) ^ p.flExp := zpow_pos (by norm_num) _
    have hs' : (0 : ℚ) ≤ ((p.mul (dyadic 1 (-p.flExp))).round : ℚ) := by exact_mod_cast hs
    exact mul_nonneg hs' h2.le

theorem fl_le (p : Frac) (hn : 0 < p.num) (hd : 0 < p.den) (hl : -1022 ≤ p.flog) :
    (fl p).toRat ≤ p.toRat + (2 : ℚ) ^ (p.flog - 53) := by
  have he : p.flExp = p.flog - 52 := by unfold flExp; omega
  have hsd : 0 < (p.mul (dyadic 1 (-p.flExp))).den :=
    Nat.mul_pos hd (dyadic_den_pos _ _)
  have hr := round_le _ hsd
  have hsv := scaled_toRat p hd p.flExp
  have h2 : (0 : ℚ) < (2 : ℚ) ^ p.flExp := zpow_pos (by norm_num) _
  have hcancel : (2 : ℚ) ^ (-p.flExp) * (2 : ℚ) ^ p.flExp = 1 := by
    rw [← zpow_add₀ (two_ne_zero : (2 : ℚ) ≠ 0), neg_add_cancel, zpow_zero]
  have hhalf : (1 : ℚ) / 2 * (2 : ℚ) ^ p.flExp = (2 : ℚ) ^ (p.flog - 53) := by
    rw [he, show (1 : ℚ) / 2 = (2 : ℚ) ^ (-1 : ℤ) from by rw [zpow_neg_one, one_div],
      ← zpow_add₀ (two_ne_zero : (2 : ℚ) ≠ 0)]
    congr 1
    ring
  calc (fl p).toRat
      = ((p.mul (dyadic 1 (-p.flExp))).round : ℚ) * (2 : ℚ) ^ p.flExp := toRat_fl p hn
    _ ≤ ((p.mul (dyadic 1 (-p.flExp))).toRat + 1 / 2) * (2 : ℚ) ^ p.flExp :=
        mul_le_mul_of_nonneg_right hr h2.le
    _ = (p.toRat * (2 : ℚ) ^ (-p.flExp) + 1 / 2) * (2 : ℚ) ^ p.flExp := by rw [hsv]
    _ = p.toRat * ((2 : ℚ) ^ (-p.flExp) * (2 : ℚ) ^ p.flExp)
        + 1 / 2 * (2 : ℚ) ^ p.flExp := by ring
    _ = p.toRat + (2 : ℚ) ^ (p.flog - 53) := by rw [hcancel, hhalf, mul_one]

theorem le_fl (p : Frac) (hn : 0 < p.num) (hd : 0 < p.den) (hl : -1022 ≤ p.flog) :
    p.toRat - (2 : ℚ) ^ (p.flog - 53) ≤ (fl p).toRat := by
  have he : p.flExp = p.flog - 52 := by unfold flExp; omega
  have hsd : 0 < (p.mul (dyadic 1 (-p.flExp))).den :=
    Nat.mul_pos hd (dyadic_den_pos _ _)
  have hsv := scaled_toRat p hd p.flExp
  have h2 : (0 : ℚ) < (2 : ℚ) ^ p.flExp := zpow_pos (by norm_num) _
  have hcancel : (2 : ℚ) ^ (-p.flExp) * (2 : ℚ) ^ p.flExp = 1 := by
    rw [← zpow_add₀ (two_ne_zero : (2 : ℚ) ≠ 0), neg_add_cancel, zpow_zero]
  have hhalf : (1 : ℚ) / 2 * (2 : ℚ) ^ p.flExp = (2 : ℚ) ^ (p.flog - 53) := by
    rw [he, show (1 : ℚ) / 2 = (2 : ℚ) ^ (-1 : ℤ) from by rw [zpow_neg_one, one_div],
      ← zpow_add₀ (two_ne_zero : (2 : ℚ) ≠ 0)]
    congr 1
    ring
  calc p.toRat - (2 : ℚ) ^ (p.flog - 53)
      = (p.toRat * (2 : ℚ) ^ (-p.flExp) - 1 / 2) * (2 : ℚ) ^ p.flExp := by
        rw [sub_mul, mul_assoc, hcancel, mul_one, hhalf]
    _ = ((p.mul (dyadic 1 (-p.flExp))).toRat - 1 / 2) * (2 : ℚ) ^ p.flExp := by rw [hsv]
    _ ≤ ((p.mul (dyadic 1 (-p.flExp))).round : ℚ) * (2 : ℚ) ^ p.flExp :=
        mul_le_mul_of_nonneg_right (le_round _ hsd) h2.le
    _ = (fl p).toRat := (toRat_fl p hn).symm

theorem fl_grid (p : Frac) (hd : 0 < p.den) (h8 : 8 ≤ p.toRat) :
    ∃ k : ℤ, (fl p).toRat = (k : ℚ) * (2 : ℚ) ^ (-(49 : ℤ)) := by
  have hv : (0 : ℚ) < p.toRat := lt_of_lt_of_le (by norm_num) h8
  have hn : 0 < p.num := num_pos p hd hv
  have hl3 : 3 ≤ p.flog := by
    by_contra hcon
    push_neg at hcon
    have hsp := (flog_spec p hn hd).2
    have hmono : (2 : ℚ) ^ (p.flog + 1) ≤ (2 : ℚ) ^ (3 : ℤ) :=
      zpow_le_zpow_right₀ (by norm_num) (by omega)
    have h8' : (2 : ℚ) ^ (3 : ℤ) = 8 := by norm_num
    linarith
  have he49 : 0 ≤ p.flExp + 49 := by
    unfold flExp
    omega
  refine ⟨(p.mul (dyadic 1 (-p.flExp))).round * ((2 ^ (p.flExp + 49).toNat : ℕ) : ℤ), ?_⟩
  rw [toRat_fl p hn]
  push_cast
  rw [mul_assoc]
  congr 1
  rw [← zpow_natCast (2 : ℚ) (p.flExp + 49).toNat, Int.toNat_of_nonneg he49,
    ← zpow_add₀ (two_ne_zero : (2 : ℚ) ≠ 0)]
  congr 1
  omega

end Frac

theorem sub_floor_grid (t : ℚ) (k : ℤ) (ht : t = (k : ℚ) * (2 : ℚ) ^ (-(49 : ℤ))) :
    t - ⌊t⌋ = 0 ∨
      ((2 : ℚ) ^ (-(49 : ℤ)) ≤ t - ⌊t⌋ ∧ t - ⌊t⌋ ≤ 1 - (2 : ℚ) ^ (-(49 : ℤ))) := by
  have hp : (0 : ℚ) < (2 : ℚ) ^ (-(49 : ℤ)) := zpow_pos (by norm_num) _
  have hpow : ((2 : ℚ) ^ (49 : ℕ)) * (2 : ℚ) ^ (-(49 : ℤ)) = 1 := by
    rw [← zpow_natCast (2 : ℚ) 49, ← zpow_add₀ (two_ne_zero : (2 : ℚ) ≠ 0)]
    norm_num
  set f : ℤ := ⌊t⌋ with hfdef
  have hx : t - (f : ℚ) = ((k - f * 2 ^ 49 : ℤ) : ℚ) * (2 : ℚ) ^ (-(49 : ℤ)) := by
    have hcast : ((k - f * 2 ^ 49 : ℤ) : ℚ) = (k : ℚ) - (f : ℚ) * (2 : ℚ) ^ (49 : ℕ) := by
      push_cast
      ring
    rw [ht, hcast, sub_mul, mul_assoc, hpow, mul_one]
  have h0 : 0 ≤ t - (f : ℚ) := by
    have := Int.fract_nonneg t
    rwa [← Int.self_sub_floor] at this
  have h1 : t - (f : ℚ) < 1 := by
    have := Int.fract_lt_one t
    rwa [← Int.self_sub_floor] at this
  set j : ℤ := k - f * 2 ^ 49 with hjdef
  have hj0 : 0 ≤ j := by
    by_contra hneg
    push_neg at hneg
    have hjle : j ≤ -1 := by omega
    have hjq : (j : ℚ) ≤ -1 := by exact_mod_cast hjle
    have : (j : ℚ) * (2 : ℚ) ^ (-(49 : ℤ)) ≤ (-1) * (2 : ℚ) ^ (-(49 : ℤ)) :=
      mul_le_mul_of_nonneg_right hjq hp.le
    rw [hx] at h0
    linarith
  have hjlt : j < 2 ^ 49 := by
    by_contra hge
    push_neg at hge
    have h2 : ((2 : ℤ) ^ 49 : ℚ) ≤ (j : ℚ) := by exact_mod_cast hge
    have hc : (((2 : ℤ) ^ 49 : ℤ) : ℚ) = (2 : ℚ) ^ (49 : ℕ) := by push_cast; ring
    have hone : (1 : ℚ) ≤ (j : ℚ) * (2 : ℚ) ^ (-(49 : ℤ)) := by
      calc (1 : ℚ) = (2 : ℚ) ^ (49 : ℕ) * (2 : ℚ) ^ (-(49 : ℤ)) := hpow.symm
        _ ≤ (j : ℚ) * (2 : ℚ) ^ (-(49 : ℤ)) := by
            apply mul_le_mul_of_nonneg_right _ hp.le
            rw [← hc]
            exact h2
    rw [hx] at h1
    linarith
  rcases eq_or_lt_of_le hj0 with hj | hj
  · left
    rw [hx, ← hj]
    norm_num
  · right
    have hj1 : (1 : ℚ) ≤ (j : ℚ) := by exact_mod_cast hj
    constructor
    · rw [hx]
      calc (2 : ℚ) ^ (-(49 : ℤ)) = 1 * (2 : ℚ) ^ (-(49 : ℤ)) := (one_mul _).symm
        _ ≤ (j : ℚ) * (2 : ℚ) ^ (-(49 : ℤ)) := mul_le_mul_of_nonneg_right hj1 hp.le
    · rw [hx]
      have hj2 : (j : ℚ) ≤ (2 : ℚ) ^ (49 : ℕ) - 1 := by
        have hle : (j : ℤ) ≤ 2 ^ 49 - 1 := by omega
        have h2 : ((j : ℤ) : ℚ) ≤ (((2 : ℤ) ^ 49 - 1 : ℤ) : ℚ) := by exact_mod_cast hle
        push_cast at h2
        linarith
      calc (j : ℚ) * (2 : ℚ) ^ (-(49 : ℤ))
          ≤ ((2 : ℚ) ^ (49 : ℕ) - 1) * (2 : ℚ) ^ (-(49 : ℤ)) :=
            mul_le_mul_of_nonneg_right hj2 hp.le
        _ = 1 - (2 : ℚ) ^ (-(49 : ℤ)) := by rw [sub_mul, hpow, one_mul]

theorem Frac.fl_of_num_nonpos (p : Frac) (h : p.num ≤ 0) : Frac.fl p = ⟨0, 1⟩ := by
  unfold Frac.fl
  rw [if_pos h]

theorem autoT_zero (n : Nat) : autoT n 0 = ⟨9 * 2 ^ 49, 2 ^ 49⟩ := by
  unfold autoT
  have h0 : ((Frac.ofNat 0).mul (jsInterval n)).num ≤ 0 := by
    simp [Frac.ofNat, Frac.mul]
  rw [Frac.fl_of_num_nonpos _ h0]
  decide

theorem autoScheduleEntry_zero (n : Nat) : autoScheduleEntry n 0 = ⟨9, 0⟩ := by
  unfold autoScheduleEntry autoMinuteVal autoFrac
  rw [autoT_zero]
  decide

theorem autoScheduleEntry_hour_lt (n i : Nat) : (autoScheduleEntry n i).hour < 24 :=
  Nat.mod_lt _ (by norm_num)

theorem autoMinuteVal_toRat_lt (n i : Nat) : (autoMinuteVal n i).toRat < 60 := by
  have hTd : 0 < (autoT n i).den := Frac.fl_den_pos _
  have hYd : 0 < (Frac.fl ((Frac.ofNat i).mul (jsInterval n))).den := Frac.fl_den_pos _
  have hYv : 0 ≤ (Frac.fl ((Frac.ofNat i).mul (jsInterval n))).toRat :=
    Frac.fl_toRat_nonneg _
  have hPd : 0 < ((Frac.ofNat 9).add (Frac.fl ((Frac.ofNat i).mul (jsInterval n)))).den :=
    Nat.mul_pos Nat.one_pos hYd
  have hPv : ((Frac.ofNat 9).add (Frac.fl ((Frac.ofNat i).mul (jsInterval n)))).toRat =
      9 + (Frac.fl ((Frac.ofNat i).mul (jsInterval n))).toRat := by
    rw [Frac.toRat_add _ _ one_ne_zero (by omega), Frac.toRat_ofNat]
    norm_num
  have h8 : 8 ≤ ((Frac.ofNat 9).add (Frac.fl ((Frac.ofNat i).mul (jsInterval n)))).toRat := by
    rw [hPv]
    linarith
  obtain ⟨k, hk⟩ :=
    Frac.fl_grid ((Frac.ofNat 9).add (Frac.fl ((Frac.ofNat i).mul (jsInterval n)))) hPd h8
  have hkT : (autoT n i).toRat = (k : ℚ) * (2 : ℚ) ^ (-(49 : ℤ)) := hk
  have hSd : 0 < ((autoT n i).sub (Frac.ofInt (autoT n i).floor)).den :=
    Nat.mul_pos hTd Nat.one_pos
  have hSx : ((autoT n i).sub (Frac.ofInt (autoT n i).floor)).toRat =
      (autoT n i).toRat - (⌊(autoT n i).toRat⌋ : ℚ) := by
    rw [Frac.toRat_sub _ _ (by omega) one_ne_zero, Frac.toRat_ofInt, Frac.floor_eq]
  have hp54 : (0 : ℚ) < (2 : ℚ) ^ (-(54 : ℤ)) := zpow_pos (by norm_num) _
  have hc49 : (2 : ℚ) ^ (-(49 : ℤ)) = 32 * (2 : ℚ) ^ (-(54 : ℤ)) := by
    rw [show (-49 : ℤ) = 5 + -54 from by norm_num,
      zpow_add₀ (two_ne_zero : (2 : ℚ) ≠ 0)]
    norm_num
  rcases sub_floor_grid ((autoT n i).toRat) k hkT with hx0 | ⟨hxlo, hxhi⟩
  · -- the fractional part is exactly zero
    have hS0 : ((autoT n i).sub (Frac.ofInt (autoT n i).floor)).toRat = 0 := by
      rw [hSx, hx0]
    have hSnum : ((autoT n i).sub (Frac.ofInt (autoT n i).floor)).num = 0 := by
      have h' : (((((autoT n i).sub (Frac.ofInt (autoT n i).floor)).num : ℤ)) : ℚ) /
          ((((autoT n i).sub (Frac.ofInt (autoT n i).floor)).den : ℕ) : ℚ) = 0 := hS0
      rcases div_eq_zero_iff.mp h' with h | h
      · exact_mod_cast h
      · exfalso
        have hden : ((((autoT n i).sub (Frac.ofInt (autoT n i).floor)).den : ℕ) : ℚ) ≠ 0 := by
          exact_mod_cast hSd.ne'
        exact hden h
    show (Frac.fl ((Frac.fl ((autoT n i).sub (Frac.ofInt (autoT n i).floor))).mul
      (Frac.ofNat 60))).toRat < 60
    rw [Frac.fl_of_num_nonpos ((autoT n i).sub (Frac.ofInt (autoT n i).floor)) (by omega)]
    have hconc : (Frac.fl ((⟨0, 1⟩ : Frac).mul (Frac.ofNat 60))).toRat = 0 := by
      norm_num [Frac.fl_of_num_nonpos, Frac.mul, Frac.ofNat, Frac.toRat]
    rw [hconc]
    norm_num
  · -- general case: the fractional part is between 2^-49 and 1 - 2^-49
    have hx0' : (0 : ℚ) < ((autoT n i).sub (Frac.ofInt (autoT n i).floor)).toRat := by
      rw [hSx]
      have := zpow_pos (show (0 : ℚ) < 2 from by norm_num) (-(49 : ℤ))
      linarith
    have hSnum : 0 < ((autoT n i).sub (Frac.ofInt (autoT n i).floor)).num :=
      Frac.num_pos _ hSd hx0'
    obtain ⟨hf1, hf2⟩ := Frac.flog_spec _ hSnum hSd
    have hlS_le : ((autoT n i).sub (Frac.ofInt (autoT n i).floor)).flog ≤ -1 := by
      by_contra hcon
      push_neg at hcon
      have hmono : (2 : ℚ) ^ (0 : ℤ) ≤
          (2 : ℚ) ^ ((autoT n i).sub (Frac.ofInt (autoT n i).floor)).flog :=
        zpow_le_zpow_right₀ (by norm_num) (by omega)
      rw [zpow_zero] at hmono
      rw [hSx] at hf1
      rw [hc49] at hxhi
      linarith
    have hlS_ge : -49 ≤ ((autoT n i).sub (Frac.ofInt (autoT n i).floor)).flog := by
      by_contra hcon
      push_neg at hcon
      have hmono : (2 : ℚ) ^ (((autoT n i).sub (Frac.ofInt (autoT n i).floor)).flog + 1) ≤
          (2 : ℚ) ^ (-(49 : ℤ)) :=
        zpow_le_zpow_right₀ (by norm_num) (by omega)
      rw [hSx] at hf2
      linarith
    have herrS : (2 : ℚ) ^ (((autoT n i).sub (Frac.ofInt (autoT n i).floor)).flog - 53) ≤
        (2 : ℚ) ^ (-(54 : ℤ)) :=
      zpow_le_zpow_right₀ (by norm_num) (by omega)
    have hFhi : (Frac.fl ((autoT n i).sub (Frac.ofInt (autoT n i).floor))).toRat ≤
        1 - 31 * (2 : ℚ) ^ (-(54 : ℤ)) := by
      have h1 := Frac.fl_le _ hSnum hSd (by omega)
      rw [hSx] at h1
      rw [hc49] at hxhi
      linarith
    have hFlo : 31 * (2 : ℚ) ^ (-(54 : ℤ)) ≤
        (Frac.fl ((autoT n i).sub (Frac.ofInt (autoT n i).floor))).toRat := by
      have h1 := Frac.le_fl _ hSnum hSd (by omega)
      rw [hSx] at h1
      rw [hc49] at hxlo
      linarith
    have hFd : 0 < (Frac.fl ((autoT n i).sub (Frac.ofInt (autoT n i).floor))).den :=
      Frac.fl_den_pos _
    have hMd : 0 < ((Frac.fl ((autoT n i).sub (Frac.ofInt (autoT n i).floor))).mul
        (Frac.ofNat 60)).den :=
      Nat.mul_pos hFd Nat.one_pos
    have hMv : ((Frac.fl ((autoT n i).sub (Frac.ofInt (autoT n i).floor))).mul
        (Frac.ofNat 60)).toRat =
        (Frac.fl ((autoT n i).sub (Frac.ofInt (autoT n i).floor))).toRat * 60 := by
      rw [Frac.toRat_mul _ _ (by omega) one_ne_zero, Frac.toRat_ofNat]
      norm_num
    have hzlo : 1860 * (2 : ℚ) ^ (-(54 : ℤ)) ≤
        ((Frac.fl ((autoT n i).sub (Frac.ofInt (autoT n i).floor))).mul
          (Frac.ofNat 60)).toRat := by
      rw [hMv]
      linarith
    have hzhi : ((Frac.fl ((autoT n i).sub (Frac.ofInt (autoT n i).floor))).mul
        (Frac.ofNat 60)).toRat ≤ 60 - 1860 * (2 : ℚ) ^ (-(54 : ℤ)) := by
      rw [hMv]
      linarith
    have hz0 : (0 : ℚ) < ((Frac.fl ((autoT n i).sub (Frac.ofInt (autoT n i).floor))).mul
        (Frac.ofNat 60)).toRat := by
      linarith
    have hMnum : 0 < ((Frac.fl ((autoT n i).sub (Frac.ofInt (autoT n i).floor))).mul
        (Frac.ofNat 60)).num :=
      Frac.num_pos _ hMd hz0
    obtain ⟨hg1, hg2⟩ := Frac.flog_spec _ hMnum hMd
    have hlM_le : ((Frac.fl ((autoT n i).sub (Frac.ofInt (autoT n i).floor))).mul
        (Frac.ofNat 60)).flog ≤ 5 := by
      by_contra hcon
      push_neg at hcon
      have hmono : (2 : ℚ) ^ (6 : ℤ) ≤
          (2 : ℚ) ^ ((Frac.fl ((autoT n i).sub (Frac.ofInt (autoT n i).floor))).mul
            (Frac.ofNat 60)).flog :=
        zpow_le_zpow_right₀ (by norm_num) (by omega)
      have h64 : (2 : ℚ) ^ (6 : ℤ) = 64 := by norm_num
      linarith
    have hlM_ge : -49 ≤ ((Frac.fl ((autoT n i).sub (Frac.ofInt (autoT n i).floor))).mul
        (Frac.ofNat 60)).flog := by
      by_contra hcon
      push_neg at hcon
      have hmono : (2 : ℚ) ^ (((Frac.fl ((autoT n i).sub
          (Frac.ofInt (autoT n i).floor))).mul (Frac.ofNat 60)).flog + 1) ≤
          (2 : ℚ) ^ (-(49 : ℤ)) :=
        zpow_le_zpow_right₀ (by norm_num) (by omega)
      rw [hc49] at hmono
      linarith
    have herrM : (2 : ℚ) ^ (((Frac.fl ((autoT n i).sub
        (Frac.ofInt (autoT n i).floor))).mul (Frac.ofNat 60)).flog - 53) ≤
        (2 : ℚ) ^ (-(48 : ℤ)) :=
      zpow_le_zpow_right₀ (by norm_num) (by omega)
    have hc48 : (2 : ℚ) ^ (-(48 : ℤ)) = 64 * (2 : ℚ) ^ (-(54 : ℤ)) := by
      rw [show (-48 : ℤ) = 6 + -54 from by norm_num,
        zpow_add₀ (two_ne_zero : (2 : ℚ) ≠ 0)]
      norm_num
    have hfinal := Frac.fl_le _ hMnum hMd (by omega)
    show (Frac.fl ((Frac.fl ((autoT n i).sub (Frac.ofInt (autoT n i).floor))).mul
      (Frac.ofNat 60))).toRat < 60
    rw [hc48] at herrM
    linarith

theorem autoMinuteVal_floor_lt (n i : Nat) :
    0 ≤ (autoMinuteVal n i).floor ∧ (autoMinuteVal n i).floor < 60 := by
  have hM0 : 0 ≤ (autoMinuteVal n i).toRat := Frac.fl_toRat_nonneg _
  have hMlt : (autoMinuteVal n i).toRat < 60 := autoMinuteVal_toRat_lt n i
  rw [Frac.floor_eq]
  constructor
  · exact Int.floor_nonneg.mpr hM0
  · apply Int.floor_lt.mpr
    exact_mod_cast hMlt

theorem autoScheduleEntry_minute_lt (n i : Nat) :
    (autoScheduleEntry n i).minute < 60 := by
  have h := autoMinuteVal_floor_lt n i
  show (autoMinuteVal n i).floor.toNat < 60
  omega

/-- C9: for a channel with postsPerDay = n > 0, auto-generation replaces
the schedule (and only the schedule) with exactly n entries.  Writing
t_i for the binary64 value of `9 + i * (24 / n)` (the division, the
multiplication and the addition each round to the nearest double, ties
to even), entry i has hour ⌊t_i⌋ % 24 and minute
⌊fl(fl(t_i - ⌊t_i⌋) * 60)⌋ - the fractional hour rounded down to whole
minutes on doubles.  The first entry is 09:00 and every entry is a
valid time of day.  Because the arithmetic is binary64, entries can
differ by one minute from the exact 24/n spacing: see the
counterexample. -/
theorem auto_generate_schedule (channel : Channel)
    (hn : 0 < channel.postsPerDay) :
    ∃ c', handleAutoGenerateSchedule channel = some c' ∧
      c' = { channel with schedule := c'.schedule } ∧
      c'.schedule.length = channel.postsPerDay ∧
      c'.schedule.head? = some ⟨9, 0⟩ ∧
      (∀ i, ∀ hi : i < c'.schedule.length,
        c'.schedule.get ⟨i, hi⟩ =
          { hour := (autoT channel.postsPerDay i).floor.toNat % 24,
            minute := (autoMinuteVal channel.postsPerDay i).floor.toNat }) ∧
      (∀ e ∈ c'.schedule, e.hour < 24 ∧ e.minute < 60) := by
  have hne : ¬ channel.postsPerDay = 0 := by omega
  refine ⟨{ channel with schedule := autoSchedule channel.postsPerDay },
    ?_, rfl, ?_, ?_, ?_, ?_⟩
  · unfold handleAutoGenerateSchedule
    rw [if_neg hne]
  · simp [autoSchedule]
  · show (autoSchedule channel.postsPerDay).head? = some ⟨9, 0⟩
    unfold autoSchedule
    rw [List.head?_eq_getElem?, List.getElem?_map, List.getElem?_range hn]
    simp [autoScheduleEntry_zero]
  · intro i hi
    show (autoSchedule channel.postsPerDay).get ⟨i, _⟩ = _
    simp only [autoSchedule, List.get_eq_getElem, List.getElem_map,
      List.getElem_range]
    rfl
  · intro e he
    simp only [autoSchedule, List.mem_map] at he
    obtain ⟨i, _, rfl⟩ := he
    exact ⟨autoScheduleEntry_hour_lt channel.postsPerDay i,
      autoScheduleEntry_minute_lt channel.postsPerDay i⟩

/-- C9 witness: the auto-generation theorem applied at a channel with
five posts per day. -/
theorem auto_generate_schedule_witness :
    0 < fivePerDayChannel.postsPerDay ∧
    ∃ c', handleAutoGenerateSchedule fivePerDayChannel = some c' ∧
      c' = { fivePerDayChannel with schedule := c'.schedule } ∧
      c'.schedule.length = fivePerDayChannel.postsPerDay ∧
      c'.schedule.head? = some ⟨9, 0⟩ ∧
      (∀ i, ∀ hi : i < c'.schedule.length,
        c'.schedule.get ⟨i, hi⟩ =
          { hour := (autoT fivePerDayChannel.postsPerDay i).floor.toNat % 24,
            minute := (autoMinuteVal fivePerDayChannel.postsPerDay i).floor.toNat }) ∧
      (∀ e ∈ c'.schedule, e.hour < 24 ∧ e.minute < 60) :=
  ⟨by decide, auto_generate_schedule fivePerDayChannel (by decide)⟩

/-- C9 counterexample: at postsPerDay = 5 the claim's exact reading -
entries at interval 24/5 hours from 09:00 with the fractional hour
rounded down - puts entry 3 at 23:24 and entry 4 at 04:12
(9 + 3 * (24/5) = 23.4 exactly), but the code computes on binary64
doubles, where 9 + 3 * (24 / 5) = 23.399999999999999, and it actually
replaces the schedule with [09:00, 13:48, 18:36, 23:23, 04:11]. -/
theorem auto_generate_schedule_counterexample :
    handleAutoGenerateSchedule fivePerDayChannel =
      some { fivePerDayChannel with
             schedule := [⟨9, 0⟩, ⟨13, 48⟩, ⟨18, 36⟩, ⟨23, 23⟩, ⟨4, 11⟩] } ∧
    exactScheduleEntry 5 3 = ⟨23, 24⟩ ∧
    exactScheduleEntry 5 4 = ⟨4, 12⟩ ∧
    autoScheduleEntry 5 3 = ⟨23, 23⟩ ∧
    autoScheduleEntry 5 4 = ⟨4, 11⟩ ∧
    autoScheduleEntry 5 3 ≠ exactScheduleEntry 5 3 ∧
    autoScheduleEntry 5 4 ≠ exactScheduleEntry 5 4 := by
  refine ⟨?_, by decide, by decide, by decide, by decide, by decide, by decide⟩
  decide

/-! ## Daily Generation Planner claims -/

theorem generatePostForChannel_found (channels : List Channel)
    (genText : String → String) (uuid nowIso channelId : String)
    (channel : Channel)
    (hf : channels.find? (fun c => c.id == channelId) = some channel) :
    generatePostForChannel channels genText uuid nowIso channelId =
      if validateTelegramCredentials channel.botToken channel.chatId = false
      then .error (invalidChannelCredsMsg channel.name)
      else .ok (generatedPost genText uuid nowIso channel) := by
  rw [generatePostForChannel.eq_def, hf]

theorem genStep_ok (channels0 : List Channel) (genText : String → String)
    (uuid nowIso channelId : String) (st : AppState) (post : Post)
    (h : generatePostForChannel channels0 genText uuid nowIso channelId
      = .ok post) :
    genStep channels0 genText uuid nowIso channelId st
      = recordGenerated channelId post st := by
  unfold genStep
  rw [h]

theorem genStep_error (channels0 : List Channel) (genText : String → String)
    (uuid nowIso channelId : String) (st : AppState) (e : String)
    (h : generatePostForChannel channels0 genText uuid nowIso channelId
      = .error e) :
    genStep channels0 genText uuid nowIso channelId st = st := by
  unfold genStep
  rw [h]

theorem generateDailyPosts_none (genText : String → String)
    (uuids : Nat → String) (today nowIso : String) (st : AppState)
    (channelId : String)
    (hf : st.channels.find? (fun c => c.id == channelId) = none) :
    generateDailyPosts genText uuids today nowIso st channelId = st := by
  rw [generateDailyPosts.eq_def, hf]

theorem generateDailyPosts_found (genText : String → String)
    (uuids : Nat → String) (today nowIso : String) (st : AppState)
    (channelId : String) (channel : Channel)
    (hf : st.channels.find? (fun c => c.id == channelId) = some channel) :
    generateDailyPosts genText uuids today nowIso st channelId =
      if channel.schedule.isEmpty then st
      else
        if channel.schedule.length ≤
            (channel.lastPosts.filter (isTodayGenerated today)).length then st
        else
          (List.range (channel.schedule.length -
              (channel.lastPosts.filter (isTodayGenerated today)).length)).foldl
            (fun s i => genStep st.channels genText (uuids i) nowIso channelId s)
            st := by
  rw [generateDailyPosts.eq_def, hf]

theorem generateDailyPosts_skip (genText : String → String)
    (uuids : Nat → String) (today nowIso : String) (st : AppState)
    (channelId : String) (channel : Channel)
    (hf : st.channels.find? (fun c => c.id == channelId) = some channel)
    (hle : channel.schedule.length ≤
      (channel.lastPosts.filter (isTodayGenerated today)).length) :
    generateDailyPosts genText uuids today nowIso st channelId = st := by
  rw [generateDailyPosts_found genText uuids today nowIso st channelId
    channel hf]
  by_cases hempty : channel.schedule.isEmpty = true
  · rw [if_pos hempty]
  · rw [if_neg hempty, if_pos hle]

theorem find?_appendPostTo (channels : List Channel) (channelId : String)
    (post : Post) (channel : Channel)
    (h : channels.find? (fun c => c.id == channelId) = some channel) :
    (appendPostTo channelId post channels).find? (fun c => c.id == channelId)
      = some { channel with lastPosts := channel.lastPosts ++ [post] } := by
  unfold appendPostTo
  induction channels with
  | nil => simp at h
  | cons a rest ih =>
      by_cases ha : (a.id == channelId) = true
      · simp [ha] at h
        subst h
        rw [List.map_cons, List.find?_cons_of_pos]
        · simp [ha]
        · simp [ha]
      · rw [List.find?_cons_of_neg] at h
        · rw [List.map_cons, List.find?_cons_of_neg]
          · exact ih h
          · simp [ha]
        · simp [ha]

theorem plannedPosts_length (genText : String → String) (uuids : Nat → String)
    (nowIso : String) (channel : Channel) (n : Nat) :
    (plannedPosts genText uuids nowIso channel n).length = n := by
  simp [plannedPosts]

theorem plannedPosts_filter_today (genText : String → String)
    (uuids : Nat → String) (today nowIso : String) (channel : Channel)
    (n : Nat) (hnow : strStartsWith nowIso today = true) :
    (plannedPosts genText uuids nowIso channel n).filter
        (isTodayGenerated today)
      = plannedPosts genText uuids nowIso channel n := by
  apply List.filter_eq_self.mpr
  intro p hp
  simp only [plannedPosts, List.mem_map] at hp
  obtain ⟨i, _, rfl⟩ := hp
  unfold isTodayGenerated generatedPost
  simp [hnow]

theorem genLoop_adds (channels0 : List Channel) (genText : String → String)
    (uuids : Nat → String) (nowIso channelId : String) (channel : Channel)
    (hfind0 : channels0.find? (fun c => c.id == channelId) = some channel)
    (hcred :
      validateTelegramCredentials channel.botToken channel.chatId = true) :
    ∀ (n : Nat) (st : AppState) (channelS : Channel),
      st.channels.find? (fun c => c.id == channelId) = some channelS →
      ((List.range n).foldl
          (fun s i => genStep channels0 genText (uuids i) nowIso channelId s)
          st).channels.find? (fun c => c.id == channelId)
        = some { channelS with
            lastPosts := channelS.lastPosts ++
              plannedPosts genText uuids nowIso channel n } := by
  intro n
  induction n with
  | zero =>
      intro st channelS hS
      simpa [plannedPosts] using hS
  | succ k ih =>
      intro st channelS hS
      rw [List.range_succ, List.foldl_append, List.foldl_cons, List.foldl_nil]
      have hmid := ih st channelS hS
      have hgen : generatePostForChannel channels0 genText (uuids k) nowIso
          channelId = .ok (generatedPost genText (uuids k) nowIso channel) := by
        rw [generatePostForChannel_found channels0 genText (uuids k) nowIso
          channelId channel hfind0, if_neg (by rw [hcred]; simp)]
      rw [genStep_ok channels0 genText (uuids k) nowIso channelId _ _ hgen]
      simp only [recordGenerated]
      rw [find?_appendPostTo _ channelId _ _ hmid]
      congr 1
      simp [plannedPosts, List.range_succ]

theorem genLoop_id (channels0 : List Channel) (genText : String → String)
    (uuids : Nat → String) (nowIso channelId : String) (channel : Channel)
    (hfind0 : channels0.find? (fun c => c.id == channelId) = some channel)
    (hcred :
      validateTelegramCredentials channel.botToken channel.chatId = false) :
    ∀ (l : List Nat) (st : AppState),
      l.foldl (fun s i => genStep channels0 genText (uuids i) nowIso channelId s)
        st = st := by
  intro l
  induction l with
  | nil => intro st; rfl
  | cons a as ih =>
      intro st
      rw [List.foldl_cons,
        genStep_error channels0 genText (uuids a) nowIso channelId st
          (invalidChannelCredsMsg channel.name)
          (by rw [generatePostForChannel_found channels0 genText (uuids a)
                nowIso channelId channel hfind0, if_pos hcred])]
      exact ih st

/-- C10: the planner is a no-op at its boundary: an unknown channel id, or
a channel whose schedule is empty, returns the state unchanged — no post
generated, no channel or statistics mutation, and no error raised. -/
theorem planner_noop_at_boundary (genText : String → String)
    (uuids : Nat → String) (today nowIso : String) (st : AppState)
    (channelId : String) :
    (st.channels.find? (fun c => c.id == channelId) = none →
       generateDailyPosts genText uuids today nowIso st channelId = st) ∧
    (∀ channel, st.channels.find? (fun c => c.id == channelId) = some channel →
       channel.schedule = [] →
       generateDailyPosts genText uuids today nowIso st channelId = st) := by
  constructor
  · intro hf
    exact generateDailyPosts_none genText uuids today nowIso st channelId hf
  · intro channel hf hempty
    rw [generateDailyPosts_found genText uuids today nowIso st channelId
      channel hf]
    simp [hempty]

/-- C10 witness: the boundary no-op at a missing channel id and at a
channel with an empty schedule. -/
theorem planner_noop_at_boundary_witness :
    (noopState.channels.find? (fun c => c.id == "missing") = none ∧
      generateDailyPosts constGenText seqUuids "2024-01-01"
        "2024-01-01T08:00:00Z" noopState "missing" = noopState) ∧
    (noopState.channels.find? (fun c => c.id == "c4")
        = some emptyScheduleChannel ∧
      emptyScheduleChannel.schedule = [] ∧
      generateDailyPosts constGenText seqUuids "2024-01-01"
        "2024-01-01T08:00:00Z" noopState "c4" = noopState) :=
  ⟨⟨by decide,
    (planner_noop_at_boundary constGenText seqUuids "2024-01-01"
      "2024-01-01T08:00:00Z" noopState "missing").1 (by decide)⟩,
   ⟨by decide, rfl,
    (planner_noop_at_boundary constGenText seqUuids "2024-01-01"
      "2024-01-01T08:00:00Z" noopState "c4").2 emptyScheduleChannel
      (by decide) rfl⟩⟩

/-- C4 counterexample: for a channel whose Telegram credentials fail
validation, every generation attempt rejects, so the planner creates zero
posts even though `neededToday` is 1 — the claimed equality between the
number of created posts and `neededToday` fails. -/
theorem planner_count_counterexample :
    generateDailyPosts constGenText seqUuids "2024-01-01"
        "2024-01-01T08:00:00Z" badCredsState "cb" = badCredsState ∧
    badCredsChannel.schedule.length -
        (badCredsChannel.lastPosts.filter
          (isTodayGenerated "2024-01-01")).length = 1 :=
  ⟨rfl, rfl⟩

/-- C4 (amended): for a channel whose credentials pass validation the
planner appends exactly `neededToday = max(0, schedule.length − #(posts
generated today))` posts to the channel; and for every channel, calling
the planner twice in succession with no day rollover in between and no
generated post consumed is idempotent: the second call changes nothing. -/
theorem planner_idempotence (genText : String → String)
    (uuids : Nat → String) (today nowIso : String) (st : AppState)
    (channelId : String) (hnow : strStartsWith nowIso today = true) :
    (∀ channel, st.channels.find? (fun c => c.id == channelId) = some channel →
       validateTelegramCredentials channel.botToken channel.chatId = true →
       ∃ channel',
         (generateDailyPosts genText uuids today nowIso st
             channelId).channels.find? (fun c => c.id == channelId)
           = some channel' ∧
         channel'.lastPosts.length = channel.lastPosts.length +
           (channel.schedule.length -
             (channel.lastPosts.filter (isTodayGenerated today)).length)) ∧
    generateDailyPosts genText uuids today nowIso
        (generateDailyPosts genText uuids today nowIso st channelId) channelId
      = generateDailyPosts genText uuids today nowIso st channelId := by
  constructor
  · intro channel hf hcred
    rw [generateDailyPosts_found genText uuids today nowIso st channelId
      channel hf]
    by_cases hempty : channel.schedule.isEmpty = true
    · rw [if_pos hempty]
      refine ⟨channel, hf, ?_⟩
      have h0 : channel.schedule.length = 0 := by
        rw [List.isEmpty_iff.mp hempty]
        rfl
      omega
    · rw [if_neg hempty]
      by_cases henough : channel.schedule.length ≤
          (channel.lastPosts.filter (isTodayGenerated today)).length
      · rw [if_pos henough]
        exact ⟨channel, hf, by omega⟩
      · rw [if_neg henough]
        refine ⟨_, genLoop_adds st.channels genText uuids nowIso channelId
          channel hf hcred
          (channel.schedule.length -
            (channel.lastPosts.filter (isTodayGenerated today)).length)
          st channel hf, ?_⟩
        simp [plannedPosts]
  · cases hf : st.channels.find? (fun c => c.id == channelId) with
    | none =>
        have h1 := generateDailyPosts_none genText uuids today nowIso st
          channelId hf
        rw [h1]
        exact h1
    | some channel =>
        have hfound := generateDailyPosts_found genText uuids today nowIso st
          channelId channel hf
        by_cases hempty : channel.schedule.isEmpty = true
        · rw [if_pos hempty] at hfound
          rw [hfound]
          exact hfound
        · rw [if_neg hempty] at hfound
          by_cases henough : channel.schedule.length ≤
              (channel.lastPosts.filter (isTodayGenerated today)).length
          · rw [if_pos henough] at hfound
            rw [hfound]
            exact hfound
          · rw [if_neg henough] at hfound
            by_cases hcred :
                validateTelegramCredentials channel.botToken channel.chatId
                  = true
            · have hres := genLoop_adds st.channels genText uuids nowIso
                channelId channel hf hcred
                (channel.schedule.length -
                  (channel.lastPosts.filter (isTodayGenerated today)).length)
                st channel hf
              rw [← hfound] at hres
              refine generateDailyPosts_skip genText uuids today nowIso _
                channelId _ hres ?_
              show channel.schedule.length ≤
                ((channel.lastPosts ++ plannedPosts genText uuids nowIso channel
                  (channel.schedule.length -
                    (channel.lastPosts.filter
                      (isTodayGenerated today)).length)).filter
                  (isTodayGenerated today)).length
              rw [List.filter_append,
                plannedPosts_filter_today genText uuids today nowIso channel _
                  hnow,
                List.length_append, plannedPosts_length]
              omega
            · have hcredf : validateTelegramCredentials channel.botToken
                  channel.chatId = false := by
                simpa using hcred
              have h1 : generateDailyPosts genText uuids today nowIso st
                  channelId = st := by
                rw [hfound]
                exact genLoop_id st.channels genText uuids nowIso channelId
                  channel hf hcredf _ st
              rw [h1]
              exact h1

/-- C4 witness: the amended planner theorem at a concrete channel with a
two-slot schedule, valid credentials and no posts yet. -/
theorem planner_idempotence_witness :
    strStartsWith "2024-01-01T08:00:00Z" "2024-01-01" = true ∧
    plannerState.channels.find? (fun c => c.id == "c3") = some plannerChannel ∧
    validateTelegramCredentials plannerChannel.botToken plannerChannel.chatId
      = true ∧
    (∃ channel',
       (generateDailyPosts constGenText seqUuids "2024-01-01"
           "2024-01-01T08:00:00Z" plannerState "c3").channels.find?
           (fun c => c.id == "c3") = some channel' ∧
       channel'.lastPosts.length = plannerChannel.lastPosts.length +
         (plannerChannel.schedule.length -
           (plannerChannel.lastPosts.filter
             (isTodayGenerated "2024-01-01")).length)) ∧
    generateDailyPosts constGenText seqUuids "2024-01-01"
        "2024-01-01T08:00:00Z"
        (generateDailyPosts constGenText seqUuids "2024-01-01"
          "2024-01-01T08:00:00Z" plannerState "c3") "c3"
      = generateDailyPosts constGenText seqUuids "2024-01-01"
          "2024-01-01T08:00:00Z" plannerState "c3" :=
  ⟨by decide, by decide, by decide,
   (planner_idempotence constGenText seqUuids "2024-01-01"
     "2024-01-01T08:00:00Z" plannerState "c3" (by decide)).1 plannerChannel
     (by decide) (by decide),
   (planner_idempotence constGenText seqUuids "2024-01-01"
     "2024-01-01T08:00:00Z" plannerState "c3" (by decide)).2⟩

/-! ## Schedule Matcher claims -/

theorem ledgerHas_ledgerSet (ledger : List (String × String)) (k v : String) :
    ledgerHas (ledgerSet ledger k v) k = true := by
  unfold ledgerSet
  by_cases hk : ledgerHas ledger k = true
  · rw [if_pos hk]
    unfold ledgerHas at hk ⊢
    rw [List.any_eq_true] at hk ⊢
    obtain ⟨e, he, hek⟩ := hk
    refine ⟨_, List.mem_map_of_mem _ he, ?_⟩
    simp [hek]
  · rw [if_neg hk]
    unfold ledgerHas
    rw [List.any_eq_true]
    exact ⟨(k, v), by simp, by simp⟩

theorem processChannel_ledger_hit (transport : Transport)
    (today nowIso : String) (channels0 : List Channel) (h mi : Nat)
    (st : AppState) (channel : Channel)
    (hkey : ledgerHas st.lastPostTimes (ledgerKey channel.id h mi) = true) :
    processChannel transport today nowIso channels0 h mi st channel
      = (st, []) := by
  unfold processChannel
  by_cases hempty : channel.schedule.isEmpty = true
  · rw [if_pos hempty]
  · rw [if_neg hempty]
    cases hfind : channel.schedule.find? (slotMatches h mi) with
    | none => rfl
    | some mt => simp [hkey]

theorem processChannel_cases (transport : Transport) (today nowIso : String)
    (channels0 : List Channel) (h mi : Nat) (st : AppState)
    (channel : Channel) :
    processChannel transport today nowIso channels0 h mi st channel
      = (st, []) ∨
    ∃ matchingTime availablePost,
      channel.schedule.find? (slotMatches h mi) = some matchingTime ∧
      ledgerHas st.lastPostTimes (ledgerKey channel.id h mi) = false ∧
      channel.lastPosts.find? (isTodayGenerated today) = some availablePost ∧
      processChannel transport today nowIso channels0 h mi st channel
        = dispatchResult transport nowIso channels0
            (ledgerKey channel.id h mi) channel.id matchingTime h mi
            availablePost st := by
  unfold processChannel
  by_cases hempty : channel.schedule.isEmpty = true
  · rw [if_pos hempty]
    exact Or.inl rfl
  · rw [if_neg hempty]
    cases hfind : channel.schedule.find? (slotMatches h mi) with
    | none => exact Or.inl rfl
    | some mt =>
        by_cases hkey :
            ledgerHas st.lastPostTimes (ledgerKey channel.id h mi) = true
        · left
          simp [hkey]
        · have hkeyf :
              ledgerHas st.lastPostTimes (ledgerKey channel.id h mi)
                = false := by
            simpa using hkey
          cases hpost : channel.lastPosts.find? (isTodayGenerated today) with
          | none =>
              left
              simp [hkeyf]
          | some ap =>
              right
              refine ⟨mt, ap, rfl, hkeyf, rfl, ?_⟩
              simp [hkeyf]

theorem processChannel_dispatches (transport : Transport)
    (today nowIso : String) (channels0 : List Channel) (h mi : Nat)
    (st : AppState) (channel : Channel) (matchingTime : ScheduleTime)
    (availablePost : Post)
    (hfind : channel.schedule.find? (slotMatches h mi) = some matchingTime)
    (hkey : ledgerHas st.lastPostTimes (ledgerKey channel.id h mi) = false)
    (hpost :
      channel.lastPosts.find? (isTodayGenerated today) = some availablePost) :
    processChannel transport today nowIso channels0 h mi st channel
      = dispatchResult transport nowIso channels0 (ledgerKey channel.id h mi)
          channel.id matchingTime h mi availablePost st := by
  unfold processChannel
  have hempty : channel.schedule.isEmpty = false := by
    cases hs : channel.schedule with
    | nil => rw [hs] at hfind; simp at hfind
    | cons a l => simp [hs]
  rw [if_neg (by simp [hempty]), hfind]
  simp [hkey, hpost]

theorem dispatchResult_snd (transport : Transport) (nowIso : String)
    (channels0 : List Channel) (key channelId : String)
    (matchingTime : ScheduleTime) (h mi : Nat) (availablePost : Post)
    (st : AppState) :
    (dispatchResult transport nowIso channels0 key channelId matchingTime h mi
        availablePost st).2
      = [⟨channelId, matchingTime, h, mi,
          publishPost channels0 nowIso transport availablePost⟩] := by
  unfold dispatchResult
  cases hp : publishPost channels0 nowIso transport availablePost with
  | error e => simp
  | ok p =>
      by_cases hps : (p.status == PostStatus.published) = true
      · simp [hps]
      · simp [hps]

theorem dispatchResult_ledger (transport : Transport) (nowIso : String)
    (channels0 : List Channel) (key channelId : String)
    (matchingTime : ScheduleTime) (h mi : Nat) (availablePost : Post)
    (st st' : AppState) (d : Dispatch)
    (hrun : dispatchResult transport nowIso channels0 key channelId
        matchingTime h mi availablePost st = (st', [d])) :
    (outcomeIsPublished d = true →
       st'.lastPostTimes = ledgerSet st.lastPostTimes key nowIso) ∧
    (outcomeIsPublished d = false → st'.lastPostTimes = st.lastPostTimes) := by
  unfold dispatchResult at hrun
  split at hrun
  next e heq =>
      injection hrun with h1 h2
      subst h1
      have hd : d = ⟨channelId, matchingTime, h, mi, .error e⟩ := by
        injection h2 with h2a
        exact h2a.symm
      subst hd
      constructor
      · intro hpub
        exact absurd hpub (by simp [outcomeIsPublished])
      · intro _
        rfl
  next publishedPost heq =>
      split at hrun
      next hps =>
        injection hrun with h1 h2
        subst h1
        have hd : d = ⟨channelId, matchingTime, h, mi, .ok publishedPost⟩ := by
          injection h2 with h2a
          exact h2a.symm
        subst hd
        constructor
        · intro _
          rfl
        · intro hnp
          rw [show outcomeIsPublished
              ⟨channelId, matchingTime, h, mi, .ok publishedPost⟩
                = (publishedPost.status == PostStatus.published) from rfl,
            hps] at hnp
          exact absurd hnp (by simp)
      next hps =>
        injection hrun with h1 h2
        subst h1
        have hd : d = ⟨channelId, matchingTime, h, mi, .ok publishedPost⟩ := by
          injection h2 with h2a
          exact h2a.symm
        subst hd
        constructor
        · intro hpub
          rw [show outcomeIsPublished
              ⟨channelId, matchingTime, h, mi, .ok publishedPost⟩
                = (publishedPost.status == PostStatus.published)
              from rfl] at hpub
          exact absurd hpub hps
        · intro _
          rfl

theorem runMatcher_acc (transport : Transport) (today nowIso : String) :
    ∀ (ticks : List (Nat × Nat)) (st : AppState) (acc : List Dispatch),
      ticks.foldl (tickStep transport today nowIso) (st, acc)
        = ((runMatcher transport today nowIso ticks st).1,
           acc ++ (runMatcher transport today nowIso ticks st).2) := by
  intro ticks
  induction ticks with
  | nil =>
      intro st acc
      simp [runMatcher]
  | cons t ts ih =>
      intro st acc
      rw [List.foldl_cons]
      show ts.foldl (tickStep transport today nowIso)
          ((checkScheduledPosts transport today nowIso true t.1 t.2 st).1,
            acc ++
              (checkScheduledPosts transport today nowIso true t.1 t.2 st).2)
        = _
      rw [ih]
      have hrun : runMatcher transport today nowIso (t :: ts) st
          = ((runMatcher transport today nowIso ts
                (checkScheduledPosts transport today nowIso true t.1 t.2
                  st).1).1,
             (checkScheduledPosts transport today nowIso true t.1 t.2 st).2 ++
               (runMatcher transport today nowIso ts
                 (checkScheduledPosts transport today nowIso true t.1 t.2
                   st).1).2) := by
        rw [runMatcher, List.foldl_cons]
        show ts.foldl (tickStep transport today nowIso)
            ((checkScheduledPosts transport today nowIso true t.1 t.2 st).1,
              [] ++
                (checkScheduledPosts transport today nowIso true t.1 t.2
                  st).2)
          = _
        rw [ih]
        simp
      rw [hrun]
      simp [List.append_assoc]

theorem runMatcher_append (transport : Transport) (today nowIso : String)
    (l1 l2 : List (Nat × Nat)) (st : AppState) :
    runMatcher transport today nowIso (l1 ++ l2) st
      = ((runMatcher transport today nowIso l2
            (runMatcher transport today nowIso l1 st).1).1,
         (runMatcher transport today nowIso l1 st).2 ++
           (runMatcher transport today nowIso l2
             (runMatcher transport today nowIso l1 st).1).2) := by
  rw [runMatcher, List.foldl_append]
  show l2.foldl (tickStep transport today nowIso)
      ((runMatcher transport today nowIso l1 st).1,
        (runMatcher transport today nowIso l1 st).2)
    = _
  rw [runMatcher_acc]

theorem allDayTicks_chunks :
    allDayTicks = hourTicks 0 ++ (hourTicks 1 ++ (hourTicks 2 ++ (hourTicks 3 ++
      (hourTicks 4 ++ (hourTicks 5 ++ (hourTicks 6 ++ (hourTicks 7 ++
      (hourTicks 8 ++ (hourTicks 9 ++ (hourTicks 10 ++ (hourTicks 11 ++
      (hourTicks 12 ++ (hourTicks 13 ++ (hourTicks 14 ++ (hourTicks 15 ++
      (hourTicks 16 ++ (hourTicks 17 ++ (hourTicks 18 ++ (hourTicks 19 ++
      (hourTicks 20 ++ (hourTicks 21 ++ (hourTicks 22 ++
        hourTicks 23)))))))))))))))))))))) := rfl

/-- C1 counterexample: a 24h run with one tick per minute, one active
channel whose schedule holds the slot (9,30), two generated posts for the
day, and a transport that always succeeds.  The first dispatch for the
slot (at tick 9:29, inside the ±1-minute tolerance) resolves 'published',
yet the tick at 9:30 dispatches the Publisher again for the same
(channel, slot) pair — the ledger is keyed by the tick time
("c1-9:29" vs "c1-9:30"), not by the slot — so the pair is dispatched
twice in one calendar day even though the first publish succeeded. -/
theorem dedup_invariant_counterexample :
    countSlotDispatches dayRun.2 "c1" ⟨9, 30⟩ = 2 ∧
    dayRun.2.all outcomeIsPublished = true := by
  have e0 : runMatcher alwaysOkTransport cexToday cexNow (hourTicks 0)
      cexState = (cexState, []) := rfl
  have e1 : runMatcher alwaysOkTransport cexToday cexNow (hourTicks 1)
      cexState = (cexState, []) := rfl
  have e2 : runMatcher alwaysOkTransport cexToday cexNow (hourTicks 2)
      cexState = (cexState, []) := rfl
  have e3 : runMatcher alwaysOkTransport cexToday cexNow (hourTicks 3)
      cexState = (cexState, []) := rfl
  have e4 : runMatcher alwaysOkTransport cexToday cexNow (hourTicks 4)
      cexState = (cexState, []) := rfl
  have e5 : runMatcher alwaysOkTransport cexToday cexNow (hourTicks 5)
      cexState = (cexState, []) := rfl
  have e6 : runMatcher alwaysOkTransport cexToday cexNow (hourTicks 6)
      cexState = (cexState, []) := rfl
  have e7 : runMatcher alwaysOkTransport cexToday cexNow (hourTicks 7)
      cexState = (cexState, []) := rfl
  have e8 : runMatcher alwaysOkTransport cexToday cexNow (hourTicks 8)
      cexState = (cexState, []) := rfl
  have e9 : runMatcher alwaysOkTransport cexToday cexNow (hourTicks 9)
      cexState = (cexState9, [cexD1, cexD2]) := rfl
  have e10 : runMatcher alwaysOkTransport cexToday cexNow (hourTicks 10)
      cexState9 = (cexState9, []) := rfl
  have e11 : runMatcher alwaysOkTransport cexToday cexNow (hourTicks 11)
      cexState9 = (cexState9, []) := rfl
  have e12 : runMatcher alwaysOkTransport cexToday cexNow (hourTicks 12)
      cexState9 = (cexState9, []) := rfl
  have e13 : runMatcher alwaysOkTransport cexToday cexNow (hourTicks 13)
      cexState9 = (cexState9, []) := rfl
  have e14 : runMatcher alwaysOkTransport cexToday cexNow (hourTicks 14)
      cexState9 = (cexState9, []) := rfl
  have e15 : runMatcher alwaysOkTransport cexToday cexNow (hourTicks 15)
      cexState9 = (cexState9, []) := rfl
  have e16 : runMatcher alwaysOkTransport cexToday cexNow (hourTicks 16)
      cexState9 = (cexState9, []) := rfl
  have e17 : runMatcher alwaysOkTransport cexToday cexNow (hourTicks 17)
      cexState9 = (cexState9, []) := rfl
  have e18 : runMatcher alwaysOkTransport cexToday cexNow (hourTicks 18)
      cexState9 = (cexState9, []) := rfl
  have e19 : runMatcher alwaysOkTransport cexToday cexNow (hourTicks 19)
      cexState9 = (cexState9, []) := rfl
  have e20 : runMatcher alwaysOkTransport cexToday cexNow (hourTicks 20)
      cexState9 = (cexState9, []) := rfl
  have e21 : runMatcher alwaysOkTransport cexToday cexNow (hourTicks 21)
      cexState9 = (cexState9, []) := rfl
  have e22 : runMatcher alwaysOkTransport cexToday cexNow (hourTicks 22)
      cexState9 = (cexState9, []) := rfl
  have e23 : runMatcher alwaysOkTransport cexToday cexNow (hourTicks 23)
      cexState9 = (cexState9, []) := rfl
  have hday : dayRun.2 = [cexD1, cexD2] := by
    show (runMatcher alwaysOkTransport cexToday cexNow allDayTicks
      cexState).2 = [cexD1, cexD2]
    rw [allDayTicks_chunks]
    simp only [runMatcher_append, e0, e1, e2, e3, e4, e5, e6, e7, e8, e9, e10,
      e11, e12, e13, e14, e15, e16, e17, e18, e19, e20, e21, e22, e23]
    simp
  rw [hday]
  exact ⟨rfl, rfl⟩

/-- C1 (amended): the ledger deduplicates per (channel, tick-minute) key,
not per schedule slot: after a tick whose dispatch resolved 'published',
the ledger holds the channel's key for that exact tick time, and
re-processing a channel with the same id at the same tick time against the
resulting state dispatches nothing and changes nothing.  Distinct tick
minutes inside the ±1-minute tolerance window carry distinct keys and are
not deduplicated, so a slot may be dispatched on adjacent tick minutes in
the same day even after a successful publish. -/
theorem tick_key_dedup (transport : Transport) (today nowIso : String)
    (channels0 : List Channel) (h mi : Nat) (st st' : AppState)
    (channel : Channel) (d : Dispatch)
    (hrun : processChannel transport today nowIso channels0 h mi st channel
      = (st', [d]))
    (hpub : outcomeIsPublished d = true) :
    ledgerHas st'.lastPostTimes (ledgerKey channel.id h mi) = true ∧
    ∀ (transport2 : Transport) (today2 now2 : String)
      (channels2 : List Channel) (channel2 : Channel),
      channel2.id = channel.id →
      processChannel transport2 today2 now2 channels2 h mi st' channel2
        = (st', []) := by
  rcases processChannel_cases transport today nowIso channels0 h mi st channel
    with hcase | ⟨mt, ap, hfind, hkeyf, hpost, heq⟩
  · rw [hcase] at hrun
    injection hrun with h1 h2
    exact absurd h2 (by simp)
  · rw [heq] at hrun
    have hled := (dispatchResult_ledger transport nowIso channels0
      (ledgerKey channel.id h mi) channel.id mt h mi ap st st' d hrun).1 hpub
    have hkey : ledgerHas st'.lastPostTimes (ledgerKey channel.id h mi)
        = true := by
      rw [hled]
      exact ledgerHas_ledgerSet st.lastPostTimes (ledgerKey channel.id h mi)
        nowIso
    refine ⟨hkey, ?_⟩
    intro transport2 today2 now2 channels2 channel2 hid
    apply processChannel_ledger_hit
    rw [show ledgerKey channel2.id h mi = ledgerKey channel.id h mi from
      by rw [hid]]
    exact hkey

/-- C1 witness: the amended per-tick-key dedup theorem at the concrete
successful dispatch of tick (9,30). -/
theorem tick_key_dedup_witness :
    (processChannel alwaysOkTransport cexToday cexNow [cexChannel] 9 30
        cexState cexChannel = (tickResult.1, [tickDispatch]) ∧
      outcomeIsPublished tickDispatch = true) ∧
    (ledgerHas tickResult.1.lastPostTimes (ledgerKey cexChannel.id 9 30)
        = true ∧
     ∀ (transport2 : Transport) (today2 now2 : String)
       (channels2 : List Channel) (channel2 : Channel),
       channel2.id = cexChannel.id →
       processChannel transport2 today2 now2 channels2 9 30 tickResult.1
         channel2 = (tickResult.1, [])) :=
  ⟨⟨rfl, rfl⟩,
   tick_key_dedup alwaysOkTransport cexToday cexNow [cexChannel] 9 30 cexState
     tickResult.1 cexChannel tickDispatch rfl rfl⟩

/-- C3 counterexample: one channel, one generated post for today, slot
(9,30), a transport that always throws.  The dispatch at tick 9:29 fails
and (as the claim says) the ledger stays unmarked, but the next tick 9:30
— within the same tolerance window of the slot — does not re-attempt
publication: the two-tick run dispatches only once, because the failed
attempt rewrote the only post to status 'failed', leaving no eligible
post. -/
theorem retry_on_failure_counterexample :
    failRun.2.map (fun d => d.outcome)
      = [.ok (failedWith failPost (publishFailureMsg
          (apiErrorMsg "network down")))] ∧
    failRun.1.lastPostTimes = failState.lastPostTimes ∧
    failRun.2.length = 1 ∧
    slotMatches 9 30 ⟨9, 30⟩ = true :=
  ⟨rfl, rfl, rfl, rfl⟩

/-- C3 (amended): a dispatch that did not resolve 'published' leaves the
daily ledger unchanged (the ledger is written only on a published
outcome); and a tick re-attempts publication exactly when a matching slot
is found, the tick's ledger key is unmarked, and an eligible generated
post created today still exists — a failed attempt rewrote its post to
'failed', so a re-attempt needs another eligible post. -/
theorem ledger_unmarked_on_failure (transport : Transport)
    (today nowIso : String) (channels0 : List Channel) (h mi : Nat)
    (st st' : AppState) (channel : Channel) (ds : List Dispatch)
    (hrun : processChannel transport today nowIso channels0 h mi st channel
      = (st', ds)) :
    (ds.all (fun d => !outcomeIsPublished d) = true →
       st'.lastPostTimes = st.lastPostTimes) ∧
    (∀ matchingTime availablePost,
       channel.schedule.find? (slotMatches h mi) = some matchingTime →
       ledgerHas st.lastPostTimes (ledgerKey channel.id h mi) = false →
       channel.lastPosts.find? (isTodayGenerated today) = some availablePost →
       ds = [⟨channel.id, matchingTime, h, mi,
         publishPost channels0 nowIso transport availablePost⟩]) := by
  constructor
  · intro hall
    rcases processChannel_cases transport today nowIso channels0 h mi st
      channel with hcase | ⟨mt, ap, hfind, hkeyf, hpost, heq⟩
    · rw [hcase] at hrun
      injection hrun with h1 h2
      rw [← h1]
    · rw [heq] at hrun
      have hsnd : ds = [⟨channel.id, mt, h, mi,
          publishPost channels0 nowIso transport ap⟩] := by
        have hs := dispatchResult_snd transport nowIso channels0
          (ledgerKey channel.id h mi) channel.id mt h mi ap st
        rw [hrun] at hs
        simpa using hs
      subst hsnd
      have hnp : outcomeIsPublished ⟨channel.id, mt, h, mi,
          publishPost channels0 nowIso transport ap⟩ = false := by
        simp only [List.all_cons, List.all_nil, Bool.and_true] at hall
        simpa using hall
      exact (dispatchResult_ledger transport nowIso channels0
        (ledgerKey channel.id h mi) channel.id mt h mi ap st st' _ hrun).2 hnp
  · intro mt ap hfind hkeyf hpost
    rw [processChannel_dispatches transport today nowIso channels0 h mi st
      channel mt ap hfind hkeyf hpost] at hrun
    have hs := dispatchResult_snd transport nowIso channels0
      (ledgerKey channel.id h mi) channel.id mt h mi ap st
    rw [hrun] at hs
    simpa using hs

/-- C3 witness: the amended theorem at the concrete failing first tick. -/
theorem ledger_unmarked_on_failure_witness :
    (failTick1.2.all (fun d => !outcomeIsPublished d) = true →
       failTick1.1.lastPostTimes = failState.lastPostTimes) ∧
    (∀ matchingTime availablePost,
       failChannel.schedule.find? (slotMatches 9 29) = some matchingTime →
       ledgerHas failState.lastPostTimes (ledgerKey failChannel.id 9 29)
         = false →
       failChannel.lastPosts.find? (isTodayGenerated cexToday)
         = some availablePost →
       failTick1.2 = [⟨failChannel.id, matchingTime, 9, 29,
         publishPost [failChannel] cexNow alwaysThrowTransport
           availablePost⟩]) :=
  ledger_unmarked_on_failure alwaysThrowTransport cexToday cexNow
    [failChannel] 9 29 failState failTick1.1 failChannel failTick1.2 rfl

end TG
